import Mathlib

/-!
Verification development for the shared face tracker of `src/backend/server.py`
(`SharedFaceTracker`).  The tracker is shallowly embedded: its mutable maps become
association lists, its floating-point arithmetic becomes exact rational arithmetic
(a custom normalized-fraction type `Q`, kept kernel-computable), and the exceptional
paths of the Python code (division by a zero norm, `KeyError`/`TypeError`) are made
explicit through an error channel.  All operations of `process_face`,
`consolidate_duplicate_ids` and `cleanup_old_faces` are translated line by line from
the source; comments cite the source line numbers.

Modelling conventions:
* `time.time()` is called several times inside one `process_face` call; all those
  reads are modelled by the single parameter `now` (the calls happen microseconds
  apart and the code only compares differences against multi-second windows).
* Python `x // y` on ints is floor division: `Int.fdiv`.
* Python `int(f)` on a float truncates toward zero: `Q.toIntTrunc`.
* `dist = (dx**2 + dy**2) ** 0.5; dist <= r` is modelled by the equivalent
  exact comparison `dx*dx + dy*dy ≤ r*r` (both sides nonnegative).
* The square root inside vector renormalization is modelled by `Q.sqrtApprox`,
  which is exact whenever the squared norm is a square of a rational (all concrete
  scenarios in this file are engineered so that every renormalization is exact).
* FAISS `IndexIDMap.search` over `IndexFlatIP` returns results by decreasing inner
  product; the tie order among equal scores is unspecified in FAISS and is modelled
  here as stable (earlier-inserted entry first).
-/

set_option maxRecDepth 100000

namespace LiveDetect

/-- Integer square root computed with fuel (structural recursion, so the kernel can
evaluate it inside `decide`); `isqrtAux 64 n` is exact for every `n < 4 ^ 64`. -/
def isqrtAux : Nat → Nat → Nat
  | 0, _ => 0
  | fuel+1, n =>
    let r := 2 * isqrtAux fuel (n / 4)
    if (r+1)*(r+1) ≤ n then r+1 else r

/-- Integer square root (floor) for the numbers appearing in this development. -/
def isqrt (n : Nat) : Nat := isqrtAux 64 n

/-- Exact rational numbers as reduced fractions with positive denominator.
`Rat` from the core library is not used because its arithmetic does not reduce
inside the kernel; this type's operations only use kernel-accelerated `Nat`/`Int`
primitives (including `Nat.gcd`). -/
structure Q where
  num : Int
  den : Nat
deriving DecidableEq

/-- Build the reduced representative of `n / d` (`d = 0` falls back to `0`,
a case never reached by the tracker model on meaningful data). -/
def Q.mk' (n : Int) (d : Int) : Q :=
  if d = 0 then ⟨0, 1⟩
  else
    let n' : Int := if d < 0 then -n else n
    let dn : Nat := d.natAbs
    let g : Nat := Nat.gcd n'.natAbs dn
    ⟨n' / (g : Int), dn / g⟩

/-- Shorthand for rational literals: `q n d` is the reduced form of `n / d`. -/
def q (n : Int) (d : Nat) : Q := Q.mk' n d

def Q.add (a b : Q) : Q := Q.mk' (a.num * (b.den : Int) + b.num * (a.den : Int)) ((a.den : Int) * (b.den : Int))

def Q.neg (a : Q) : Q := ⟨-a.num, a.den⟩

def Q.sub (a b : Q) : Q := Q.add a (Q.neg b)

def Q.mul (a b : Q) : Q := Q.mk' (a.num * b.num) ((a.den : Int) * (b.den : Int))

def Q.div (a b : Q) : Q := Q.mk' (a.num * (b.den : Int)) ((a.den : Int) * b.num)

instance : Add Q := ⟨Q.add⟩
instance : Sub Q := ⟨Q.sub⟩
instance : Mul Q := ⟨Q.mul⟩
instance : Neg Q := ⟨Q.neg⟩
instance : Div Q := ⟨Q.div⟩

/-- Boolean `a ≤ b` (denominators are positive by construction). -/
def Q.ble (a b : Q) : Bool := decide (a.num * (b.den : Int) ≤ b.num * (a.den : Int))

/-- Boolean `a < b`. -/
def Q.blt (a b : Q) : Bool := decide (a.num * (b.den : Int) < b.num * (a.den : Int))

def Q.max (a b : Q) : Q := if Q.ble a b then b else a

def Q.min (a b : Q) : Q := if Q.ble a b then a else b

def Q.abs (a : Q) : Q := ⟨a.num.natAbs, a.den⟩

def Q.ofInt (n : Int) : Q := ⟨n, 1⟩

/-- Python `int(...)` applied to a float: truncation toward zero, which on a
fraction with positive denominator is T-division (`Int.div`) of the numerator by
the denominator. -/
def Q.toIntTrunc (a : Q) : Int := Int.tdiv a.num (a.den : Int)

/-- Rational square root used by the model of `np.linalg.norm`: exact whenever the
reduced numerator and denominator are perfect squares (true at every
renormalization reached by the concrete scenarios below); otherwise it returns a
deterministic junk value that only feeds equally deterministic comparisons. -/
def Q.sqrtApprox (a : Q) : Q := Q.mk' (isqrt a.num.toNat) (isqrt a.den)

/-- Embedding vectors (the source uses 512-d `float32`; the claims only need the
exact field operations, so the dimension is left to each scenario). -/
abbrev Vec := List Q

def dotV (a b : Vec) : Q := (List.zipWith Q.mul a b).foldl Q.add (q 0 1)

def addV (a b : Vec) : Vec := List.zipWith Q.add a b

def smulV (c : Q) (v : Vec) : Vec := v.map (fun x => Q.mul c x)

def norm2V (v : Vec) : Q := dotV v v

/-- `v / np.linalg.norm(v)` (server.py lines 140, 274, 400, 530). -/
def normalizeV (v : Vec) : Vec :=
  let n := Q.sqrtApprox (norm2V v)
  v.map (fun x => Q.div x n)

/-- `sklearn.metrics.pairwise.cosine_similarity` of two single vectors. -/
def cosSim (a b : Vec) : Q :=
  Q.div (dotV a b) (Q.mul (Q.sqrtApprox (norm2V a)) (Q.sqrtApprox (norm2V b)))

/-- Bounding box `(x1, y1, x2, y2)` of Python ints (server.py line 789). -/
structure BBox where
  x1 : Int
  y1 : Int
  x2 : Int
  y2 : Int
deriving DecidableEq

/-- `SharedFaceTracker.iou` (server.py lines 126-134), exact rational division. -/
def iou (boxA boxB : BBox) : Q :=
  let xA := Max.max boxA.x1 boxB.x1
  let yA := Max.max boxA.y1 boxB.y1
  let xB := Min.min boxA.x2 boxB.x2
  let yB := Min.min boxA.y2 boxB.y2
  let interArea := Max.max 0 (xB - xA + 1) * Max.max 0 (yB - yA + 1)
  let boxAArea := (boxA.x2 - boxA.x1 + 1) * (boxA.y2 - boxA.y1 + 1)
  let boxBArea := (boxB.x2 - boxB.x1 + 1) * (boxB.y2 - boxB.y1 + 1)
  Q.mk' interArea (boxAArea + boxBArea - interArea)

/-- Observation center `((x1+x2)//2, (y1+y2)//2)` (server.py lines 154-155). -/
def bboxCenter (b : BBox) : Int × Int := (Int.fdiv (b.x1 + b.x2) 2, Int.fdiv (b.y1 + b.y2) 2)

/-- `((cx-lx)**2 + (cy-ly)**2) ** 0.5 <= r`, stated without the square root. -/
def centerDistLe (c1 c2 : Int × Int) (r : Int) : Bool :=
  decide ((c1.1 - c2.1) * (c1.1 - c2.1) + (c1.2 - c2.2) * (c1.2 - c2.2) ≤ r * r)

/-- Bbox smoothing `int(0.3*obs + 0.7*last)` per coordinate (server.py lines 411-417). -/
def smoothBBox (obs last : BBox) : BBox :=
  let f : Int → Int → Int := fun o l =>
    Q.toIntTrunc (Q.add (Q.mul (q 3 10) (Q.ofInt o)) (Q.mul (q 7 10) (Q.ofInt l)))
  ⟨f obs.x1 last.x1, f obs.y1 last.y1, f obs.x2 last.x2, f obs.y2 last.y2⟩

section AssocList

variable {α : Type} {β : Type} [DecidableEq α]

/-- Association-list lookup, modelling Python `dict.get`. -/
def alget (l : List (α × β)) (k : α) : Option β :=
  (l.find? (fun p => decide (p.1 = k))).map Prod.snd

/-- Key membership. -/
def alhas (l : List (α × β)) (k : α) : Bool := l.any (fun p => decide (p.1 = k))

/-- Association-list update, modelling Python `dict[k] = v`: an existing key keeps
its position (insertion order), a new key is appended at the end. -/
def alset (l : List (α × β)) (k : α) (v : β) : List (α × β) :=
  match l with
  | [] => [(k, v)]
  | p :: t => if p.1 = k then (k, v) :: t else p :: alset t k v

/-- Association-list removal, modelling Python `dict.pop(k, None)`. -/
def alremove (l : List (α × β)) (k : α) : List (α × β) :=
  l.filter (fun p => !(decide (p.1 = k)))

/-- The key list of an association list. -/
def alkeys (l : List (α × β)) : List α := l.map Prod.fst

end AssocList

/-! ## Tracker data model (server.py lines 26-74) -/

/-- Re-link probation record (server.py lines 188-192): `start_ts`, `last_ts`,
`best_sim`. -/
structure RelinkTrack where
  start_ts : Q
  last_ts : Q
  best_sim : Q
deriving DecidableEq

/-- Pending track (server.py lines 261-267): observation count, first/last
timestamps, running-average embedding, last bbox. -/
structure PendingTrack where
  count : Nat
  first_ts : Q
  last_ts : Q
  emb : Vec
  bbox : BBox
deriving DecidableEq

/-- Pending-track key `(stream_id, (cx // 64, cy // 64))` (server.py line 257). -/
abbrev CellKey := String × Int × Int

/-- Errors the Python code can raise inside the tracker: division of the input
embedding by a zero norm (line 140; numpy emits non-finite values there, modelled
as an explicit error per the well-definedness reading of the spec),
`KeyError` on `id2emb[...]` (lines 396, 429), and `TypeError` on
`np.array([None], dtype=np.int64)` in cleanup (line 570). -/
inductive TrackErr where
  | zeroNorm
  | keyErr
  | typeErr
deriving DecidableEq

instance {ε α : Type} [DecidableEq ε] [DecidableEq α] : DecidableEq (Except ε α) :=
  fun a b =>
    match a, b with
    | .ok x, .ok y =>
        if h : x = y then isTrue (by rw [h]) else isFalse (fun hc => by cases hc; exact h rfl)
    | .error x, .error y =>
        if h : x = y then isTrue (by rw [h]) else isFalse (fun hc => by cases hc; exact h rfl)
    | .ok _, .error _ => isFalse (fun hc => by cases hc)
    | .error _, .ok _ => isFalse (fun hc => by cases hc)

/-- The shared tracker state (server.py lines 27-67).  Python dicts become
association lists preserving insertion order.  The maps indexed by
`assigned_id` — which Python can index with `None` via the fall-through path of
lines 346-362 — are keyed by `Option Nat`; maps only ever indexed by real ids are
keyed by `Nat`.  The watchlist matrix `stored_embeddings` is carried in the state
(immutable during the calls modelled here); `stored_labels` are identified with
their row index. -/
structure TrackerState where
  index : List (Nat × Vec)
  next_id : Nat
  id2emb : List (Nat × Vec)
  id_checked_in_db : List (Option Nat × Bool)
  id_suspicious_status : List (Option Nat × Bool)
  suspicious_map : List (Nat × (Nat × Q))
  id2last_bbox : List (Option Nat × BBox)
  id2last_seen : List (Option Nat × Q)
  id2stream : List (Option Nat × String)
  pending_tracks : List (CellKey × PendingTrack)
  lifetime_ids : List Nat
  lifetime_suspicious_ids : List Nat
  relink_tracks : List (Nat × RelinkTrack)
  faces_since_rebuild : Nat
  stored_embeddings : List Vec
deriving DecidableEq

/-! ### Configuration constants (server.py lines 47-67) -/

def top_k : Nat := 1
def db_match_threshold : Q := q 9 20
def tracking_threshold : Q := q 1 2
def rebuild_interval : Nat := 100
def min_face_size : Int := 24
def face_timeout : Q := q 30 1
def consolidation_threshold : Q := q 13 20
def consolidation_check_interval : Nat := 20
def reuse_distance_px : Int := 120
def reuse_time_window_s : Q := q 3 1
def min_appearances_for_id : Nat := 3
def pending_timeout_s : Q := q 3 1
def similarity_reuse_threshold : Q := q 13 20
def relink_duration_s : Q := q 3 1
def relink_min_confidence : Q := q 7 20
def immediate_merge_threshold : Q := q 4 5
def immediate_merge_iou : Q := q 9 20
def immediate_merge_time_window : Q := q 2 1
def max_identity_capacity : Nat := 1000

/-! ### Vector-index operations (FAISS `IndexIDMap(IndexFlatIP)`) -/

/-- `index.add_with_ids` appends an `(id, vector)` entry. -/
def idxAdd (idx : List (Nat × Vec)) (id' : Nat) (emb : Vec) : List (Nat × Vec) :=
  idx ++ [(id', emb)]

/-- `index.remove_ids` removes every vector registered under the id. -/
def idxRemove (idx : List (Nat × Vec)) (id' : Nat) : List (Nat × Vec) :=
  idx.filter (fun p => !(decide (p.1 = id')))

/-- Stable insertion (descending similarity, earlier entry first among ties). -/
def insertDesc (x : Q × Nat) : List (Q × Nat) → List (Q × Nat)
  | [] => [x]
  | y :: ys => if Q.blt x.1 y.1 then y :: insertDesc x ys else x :: y :: ys

/-- `index.search(query, k)`: inner products against every stored vector, sorted
by decreasing similarity, truncated to `k` (server.py line 174). -/
def idxSearch (idx : List (Nat × Vec)) (query : Vec) (k : Nat) : List (Q × Nat) :=
  ((idx.map (fun p => (dotV query p.2, p.1))).foldr insertDesc []).take k

/-! ### `process_face` step by step (server.py lines 136-472) -/

/-- Step C — fast spatial-temporal reuse in the same stream (lines 152-170).
Returns the key of the first matching `id2last_bbox` entry (a ghost `None` key
planted by the fall-through bug behaves exactly like Python, where
`assigned_id = None` is indistinguishable from no assignment) together with
`best_sim = 1.0` on a match. -/
def stepC (s : TrackerState) (bbox : BBox) (stream_id : String) (now : Q) :
    Option Nat × Q :=
  let c := bboxCenter bbox
  match s.id2last_bbox.find? (fun p =>
      decide (alget s.id2stream p.1 = some stream_id) &&
      Q.ble (Q.sub now ((alget s.id2last_seen p.1).getD (q 0 1))) reuse_time_window_s &&
      centerDistLe c (bboxCenter p.2) reuse_distance_px) with
  | some p => (p.1, q 1 1)
  | none => (none, q 0 1)

/-- Accumulator of the Step-D candidate loop: `assigned_id`, `best_sim` and the
`relink_tracks` map (the only state the loop mutates). -/
structure DState where
  assigned : Option Nat
  best_sim : Q
  relink : List (Nat × RelinkTrack)
deriving DecidableEq

/-- The re-link probation bookkeeping shared by all three Step-D branches
(lines 185-204, 208-226, 230-248).  The boolean reports whether the candidate was
assigned now (probation window elapsed and confidence reached). -/
def probation (now : Q) (fid : Nat) (sim : Q) (st : DState) : DState × Bool :=
  match alget st.relink fid with
  | none =>
      ({ st with relink := alset st.relink fid ⟨now, now, sim⟩ }, false)
  | some r =>
      let r' : RelinkTrack := ⟨r.start_ts, now, Q.max r.best_sim sim⟩
      let rel' := alset st.relink fid r'
      if Q.ble relink_duration_s (Q.sub now r.start_ts) &&
         Q.ble relink_min_confidence r'.best_sim then
        ({ assigned := some fid, best_sim := sim, relink := rel' }, true)
      else
        ({ st with relink := rel' }, false)

/-- The trailing "very high similarity" check of the loop body (lines 228-248).
It is reached when neither earlier branch issued `continue`. -/
def stepDThird (now : Q) (fid : Nat) (sim : Q) (st : DState) : DState :=
  if Q.blt (q 4 5) sim && Q.blt st.best_sim sim then (probation now fid sim st).1
  else st

/-- One iteration of the Step-D candidate loop (lines 175-248). -/
def stepDCand (s : TrackerState) (bbox : BBox) (now : Q) (st : DState)
    (c : Q × Nat) : DState :=
  let sim := c.1
  let fid := c.2
  let spatial : Bool :=
    match alget s.id2last_bbox (some fid) with
    | some lb => Q.blt (q 3 10) (iou lb bbox)
    | none => false
  if spatial then
    if Q.blt tracking_threshold sim && Q.blt st.best_sim sim then
      let pr := probation now fid sim st
      if pr.2 then stepDThird now fid sim pr.1 else pr.1
    else stepDThird now fid sim st
  else if Q.blt (Q.add tracking_threshold (q 3 20)) sim then
    if Q.blt st.best_sim sim then
      let pr := probation now fid sim st
      if pr.2 then stepDThird now fid sim pr.1 else pr.1
    else stepDThird now fid sim st
  else stepDThird now fid sim st

/-- Step D — vector-index re-identification with probation (lines 172-248). -/
def stepD (s : TrackerState) (queryEmb : Vec) (bbox : BBox) (now : Q)
    (a0 : Option Nat) (b0 : Q) : DState :=
  if s.index.length = 0 then ⟨a0, b0, s.relink_tracks⟩
  else
    (idxSearch s.index queryEmb (Nat.min 10 s.index.length)).foldl
      (stepDCand s bbox now) ⟨a0, b0, s.relink_tracks⟩

/-- `np.argmax(cosine_similarity(query, all_embs))` over the `id2emb` values in
insertion order (first maximal entry wins), used at lines 284-290 and 339-344. -/
def broadcastBest (s : TrackerState) (queryEmb : Vec) : Option (Nat × Q) :=
  match s.id2emb with
  | [] => none
  | p0 :: rest =>
      some (rest.foldl (fun acc p =>
        let sv := cosSim queryEmb p.2
        if Q.blt acc.2 sv then (p.1, sv) else acc)
        (p0.1, cosSim queryEmb p0.2))

/-- `_cleanup_pending` (server.py lines 584-599). -/
def cleanup_pending (s : TrackerState) (now : Q) : TrackerState :=
  { s with
    pending_tracks := s.pending_tracks.filter
      (fun p => Q.ble (Q.sub now p.2.last_ts) pending_timeout_s),
    relink_tracks := s.relink_tracks.filter
      (fun p => Q.ble (Q.sub now p.2.last_ts) pending_timeout_s) }

/-- Registration of a brand-new identity (triplicated verbatim in the source at
lines 303-312, 372-380 and 384-392). -/
def createIdentity (s : TrackerState) (emb : Vec) : TrackerState × Nat :=
  let nid := s.next_id
  ({ s with
     index := idxAdd s.index nid emb,
     id2emb := alset s.id2emb nid emb,
     id_checked_in_db := alset s.id_checked_in_db (some nid) false,
     id_suspicious_status := alset s.id_suspicious_status (some nid) false,
     next_id := nid + 1,
     faces_since_rebuild := s.faces_since_rebuild + 1,
     lifetime_ids :=
       if nid ∈ s.lifetime_ids then s.lifetime_ids else s.lifetime_ids ++ [nid] },
   nid)

/-- Outcome of the `assigned_id is None` stage: either continue into the
post-assignment updates with a (possibly new) assignment, or return early. -/
inductive StageOut where
  | cont (assigned : Option Nat) (best_sim : Q)
  | ret (r : Option Nat × Bool × BBox)
deriving DecidableEq

/-- Step F — occlusion fallback scan (lines 317-332): first same-stream, recent
entry of `id2last_bbox` with `IoU > 0.2` or center distance within 120 px.
Returns the matched key (itself an `Option Nat`, since a ghost `None` entry can
match, in which case Python sets `occluded_id = None` yet `recent_nearby = True`). -/
def occlusionScan (s : TrackerState) (bbox : BBox) (stream_id : String) (now : Q) :
    Option (Option Nat) :=
  let c := bboxCenter bbox
  (s.id2last_bbox.find? (fun p =>
      decide (alget s.id2stream p.1 = some stream_id) &&
      Q.ble (Q.sub now ((alget s.id2last_seen p.1).getD (q 0 1))) reuse_time_window_s &&
      (Q.blt (q 1 5) (iou bbox p.2) ||
       centerDistLe c (bboxCenter p.2) reuse_distance_px))).map Prod.fst

/-- Lines 334-393: the block following the promote/match/occlusion decision.
`occluded = none` models Python `occluded_id is None`.  When the broadcast
maximum exceeds `similarity_reuse_threshold` but probation is not satisfied the
code records the probation and falls through with `assigned_id` unchanged (the
missing `return` of line 362). -/
def sharedTail (s : TrackerState) (queryEmb : Vec) (bbox : BBox) (now : Q)
    (assigned : Option Nat) (best : Q) (occluded : Option Nat)
    (recent_nearby : Bool) : TrackerState × StageOut :=
  match occluded with
  | some oid => (s, .cont (some oid) (Q.max best (q 3 5)))
  | none =>
    match broadcastBest s queryEmb with
    | some (mid, ms) =>
      if Q.blt similarity_reuse_threshold ms then
        match alget s.relink_tracks mid with
        | none =>
            ({ s with relink_tracks := alset s.relink_tracks mid ⟨now, now, ms⟩ },
             .cont assigned best)
        | some r =>
            let r' : RelinkTrack := ⟨r.start_ts, now, Q.max r.best_sim ms⟩
            let s' := { s with relink_tracks := alset s.relink_tracks mid r' }
            if Q.ble relink_duration_s (Q.sub now r.start_ts) &&
               Q.ble relink_min_confidence r'.best_sim then
              (s', .cont (some mid) best)
            else
              (s', .cont assigned best)
      else
        if recent_nearby then (s, .ret (none, false, bbox))
        else if max_identity_capacity ≤ s.id2emb.length then
          (s, .ret (none, false, bbox))
        else
          let cr := createIdentity s queryEmb
          (cr.1, .cont (some cr.2) best)
    | none =>
        -- `len(self.id2emb) > 0` is false: "first face ever" (lines 382-393)
        let cr := createIdentity s queryEmb
        (cr.1, .cont (some cr.2) best)

/-- Lines 250-393: the whole `assigned_id is None` stage — pending-track update,
promotion, broadcast reuse, occlusion fallback and new-identity creation. -/
def pendingStage (s : TrackerState) (queryEmb : Vec) (bbox : BBox)
    (stream_id : String) (now : Q) (b0 : Q) : TrackerState × StageOut :=
  let c := bboxCenter bbox
  let cell : CellKey := (stream_id, Int.fdiv c.1 64, Int.fdiv c.2 64)
  let pcur : PendingTrack :=
    match alget s.pending_tracks cell with
    | none => ⟨1, now, now, queryEmb, bbox⟩
    | some p =>
        ⟨p.count + 1, p.first_ts, now,
         normalizeV (addV (smulV (q 7 10) p.emb) (smulV (q 3 10) queryEmb)), bbox⟩
  let s1 := { s with pending_tracks := alset s.pending_tracks cell pcur }
  let promote : Bool := decide (min_appearances_for_id ≤ pcur.count)
  let matched_existing : Option Nat :=
    if !promote && !s1.id2emb.isEmpty then
      match broadcastBest s1 queryEmb with
      | some (mid, ms) => if Q.blt (q 4 5) ms then some mid else none
      | none => none
    else none
  match matched_existing with
  | some mid =>
      sharedTail s1 queryEmb bbox now (some mid) (Q.max b0 (q 4 5)) none false
  | none =>
    if promote then
      let s2 := cleanup_pending s1 now
      if max_identity_capacity ≤ s2.id2emb.length then
        (s2, .ret (none, false, bbox))
      else
        let cr := createIdentity s2 pcur.emb
        let s3 := { cr.1 with pending_tracks := alremove cr.1.pending_tracks cell }
        sharedTail s3 queryEmb bbox now (some cr.2) b0 none false
    else
      match occlusionScan s1 bbox stream_id now with
      | some k => sharedTail s1 queryEmb bbox now none b0 k true
      | none => sharedTail s1 queryEmb bbox now none b0 none false

/-- The tracking-EMA formula of lines 398-400: `w = min(0.5, sim·0.3)`,
`normalize((1-w)·old + w·query)`. -/
def emaVec (best : Q) (old queryEmb : Vec) : Vec :=
  let w := Q.min (q 1 2) (Q.mul best (q 3 10))
  normalizeV (addV (smulV (Q.sub (q 1 1) w) old) (smulV w queryEmb))

/-- The `else` branch of `assigned_id is None` (lines 394-405): adaptive-weight
EMA update of the canonical embedding plus the index remove/add.  A `KeyError`
is raised when the assigned id has no embedding. -/
def emaStage (s : TrackerState) (aid : Nat) (best : Q) (queryEmb : Vec) :
    TrackerState × Option TrackErr :=
  match alget s.id2emb aid with
  | none => (s, some .keyErr)
  | some old =>
      let newEmb := emaVec best old queryEmb
      ({ s with
         id2emb := alset s.id2emb aid newEmb,
         index := idxAdd (idxRemove s.index aid) aid newEmb }, none)

/-- Lines 407-423: bbox smoothing and the per-id bookkeeping writes (which Python
performs even when `assigned_id` is `None`). -/
def postUpdate (s : TrackerState) (assigned : Option Nat) (bbox : BBox)
    (stream_id : String) (now : Q) : TrackerState × BBox :=
  let bbox' : BBox :=
    match alget s.id2last_bbox assigned with
    | some lb => smoothBBox bbox lb
    | none => bbox
  ({ s with
     id2last_bbox := alset s.id2last_bbox assigned bbox',
     id2last_seen := alset s.id2last_seen assigned now,
     id2stream := alset s.id2stream assigned stream_id,
     relink_tracks :=
       match assigned with
       | some a => alremove s.relink_tracks a
       | none => s.relink_tracks },
   bbox')

/-- First-time watchlist check (lines 425-446).  Indexing `id2emb[None]` (the
fall-through path with a nonempty watchlist) raises `KeyError`. -/
def dbCheckStage (s : TrackerState) (assigned : Option Nat) :
    TrackerState × Option TrackErr :=
  if (alget s.id_checked_in_db assigned).getD false then (s, none)
  else
    let s1 := { s with id_checked_in_db := alset s.id_checked_in_db assigned true }
    if s1.stored_embeddings.isEmpty then
      ({ s1 with id_suspicious_status := alset s1.id_suspicious_status assigned false },
       none)
    else
      match assigned with
      | none => (s1, some .keyErr)
      | some a =>
        match alget s1.id2emb a with
        | none => (s1, some .keyErr)
        | some cur =>
            let simsDb := s1.stored_embeddings.map (fun e => cosSim cur e)
            let best := (simsDb.foldl (fun (acc : Nat × Q × Nat) sv =>
                if Q.ble acc.2.1 sv then (acc.2.2, sv, acc.2.2 + 1)
                else (acc.1, acc.2.1, acc.2.2 + 1))
              (0, q (-2) 1, 0))
            let bestIdx := best.1
            let bestScore := best.2.1
            if Q.blt db_match_threshold bestScore then
              ({ s1 with
                 id_suspicious_status := alset s1.id_suspicious_status assigned true,
                 suspicious_map := alset s1.suspicious_map a (bestIdx, bestScore),
                 lifetime_suspicious_ids :=
                   if a ∈ s1.lifetime_suspicious_ids then s1.lifetime_suspicious_ids
                   else s1.lifetime_suspicious_ids ++ [a] }, none)
            else
              ({ s1 with
                 id_suspicious_status := alset s1.id_suspicious_status assigned false },
               none)

/-! ### Consolidation (server.py lines 474-555) -/

/-- Merge condition between two identities with the given embeddings
(lines 494-513): `(sim ≥ 0.8 ∧ seen within 2 s) ∨ IoU ≥ 0.45 ∨ sim > 0.65`
(the `if`/`elif` both add the candidate to the group). -/
def consMergeCond (s : TrackerState) (id1 : Nat) (emb1 : Vec) (id2 : Nat)
    (emb2 : Vec) : Bool :=
  let similarity := cosSim emb1 emb2
  let iou_recent : Q :=
    match alget s.id2last_bbox (some id1), alget s.id2last_bbox (some id2) with
    | some l1, some l2 => iou l1 l2
    | _, _ => q 0 1
  let t1 := (alget s.id2last_seen (some id1)).getD (q 0 1)
  let t2 := (alget s.id2last_seen (some id2)).getD (q 0 1)
  let seen_close := Q.ble (Q.abs (Q.sub t1 t2)) immediate_merge_time_window
  (Q.ble immediate_merge_threshold similarity && seen_close) ||
  Q.ble immediate_merge_iou iou_recent ||
  Q.blt consolidation_threshold similarity

/-- Inner loop of consolidation for initiator `id1` (lines 489-513): scan the ids
after it, skipping already-consolidated ones, and collect the merge group
(in encounter order) together with the grown `consolidated` set. -/
def consInner (s : TrackerState) (id1 : Nat) (emb1 : Vec) :
    List Nat → List Nat → List Nat × List Nat
  | [], cons => ([], cons)
  | id2 :: rest, cons =>
      if id2 ∈ cons then consInner s id1 emb1 rest cons
      else if consMergeCond s id1 emb1 id2 ((alget s.id2emb id2).getD []) then
        let r := consInner s id1 emb1 rest (cons ++ [id2])
        (id2 :: r.1, r.2)
      else consInner s id1 emb1 rest cons

/-- Removal of a merged-away id from every tracking structure (lines 543-551). -/
def removeIdEverywhere (s : TrackerState) (oid : Nat) : TrackerState :=
  { s with
    index := idxRemove s.index oid,
    id2emb := alremove s.id2emb oid,
    id_checked_in_db := alremove s.id_checked_in_db (some oid),
    id_suspicious_status := alremove s.id_suspicious_status (some oid),
    suspicious_map := alremove s.suspicious_map oid,
    id2last_bbox := alremove s.id2last_bbox (some oid),
    id2last_seen := alremove s.id2last_seen (some oid),
    id2stream := alremove s.id2stream (some oid) }

/-- `0.7 · primary + 0.3 · other`, renormalized (lines 528-530). -/
def blendEmb (p o : Vec) : Vec :=
  normalizeV (addV (smulV (q 7 10) p) (smulV (q 3 10) o))

/-- Suspicious-status transfer for one merged-away id (lines 536-540). -/
def suspTransferOne (primary : Nat) (st : TrackerState) (oid : Nat) : TrackerState :=
  if (alget st.id_suspicious_status (some oid)).getD false then
    let st1 := { st with
      id_suspicious_status := alset st.id_suspicious_status (some primary) true }
    match alget st1.suspicious_map oid with
    | some m => { st1 with suspicious_map := alset st1.suspicious_map primary m }
    | none => st1
  else st

/-- Merge a nonempty group into its primary (lines 516-555): the primary is the
minimum id of the group, its embedding is the sequential blend, suspicious status
and match record are transferred, the others are removed everywhere, and the index
entry of the primary is refreshed. -/
def applyMerge (s : TrackerState) (id1 : Nat) (others : List Nat) : TrackerState :=
  if others.isEmpty then s
  else
    let group := id1 :: others
    let primary := group.foldl Nat.min id1
    let other_ids := group.filter (fun i => !(decide (i = primary)))
    let primary0 := (alget s.id2emb primary).getD []
    let merged := other_ids.foldl
      (fun p oid => blendEmb p ((alget s.id2emb oid).getD [])) primary0
    let s1 := { s with id2emb := alset s.id2emb primary merged }
    let s2 := other_ids.foldl (suspTransferOne primary) s1
    let s3 := other_ids.foldl removeIdEverywhere s2
    { s3 with index := idxAdd (idxRemove s3.index primary) primary merged }

/-- Outer loop of consolidation over the id list captured at entry
(lines 482-555), carrying the `consolidated` set. -/
def consGo (s : TrackerState) (cons : List Nat) : List Nat → TrackerState
  | [] => s
  | id1 :: rest =>
      if id1 ∈ cons then consGo s cons rest
      else
        let emb1 := (alget s.id2emb id1).getD []
        let inner := consInner s id1 emb1 rest cons
        let s' := applyMerge s id1 inner.1
        consGo s' inner.2 rest

/-- `consolidate_duplicate_ids` (server.py lines 474-555). -/
def consolidate_duplicate_ids (s : TrackerState) : TrackerState :=
  if s.id2emb.length < 2 then s
  else consGo s [] (alkeys s.id2emb)

/-! ### Cleanup (server.py lines 557-582) -/

/-- Removal loop of `cleanup_old_faces`: each stale id is removed from the index
and every map; a ghost `None` key in `id2last_seen` makes
`np.array([face_id], dtype=np.int64)` raise `TypeError` before any removal for
that entry (line 570), aborting the loop with the partially cleaned state. -/
def cleanupRemove (s : TrackerState) : List (Option Nat) → TrackerState × Option TrackErr
  | [] => (s, none)
  | none :: _ => (s, some .typeErr)
  | some fid :: rest => cleanupRemove (removeIdEverywhere s fid) rest

/-- `cleanup_old_faces` (server.py lines 557-582). -/
def cleanup_old_faces (s : TrackerState) (now : Q) : TrackerState × Option TrackErr :=
  let to_remove := (s.id2last_seen.filter
      (fun p => Q.blt face_timeout (Q.sub now p.2))).map Prod.fst
  match cleanupRemove s to_remove with
  | (s', some e) => (s', some e)
  | (s', none) => (cleanup_pending s' now, none)

/-! ### Maintenance and the full `process_face` -/

/-- Index rebuild from the current `id2emb` map (lines 461-469). -/
def rebuildIndex (s : TrackerState) : TrackerState := { s with index := s.id2emb }

/-- The cleanup/consolidate/rebuild block (lines 452-470), entered when
`faces_since_rebuild ≥ rebuild_interval`. -/
def maintenanceRebuild (s : TrackerState) (now : Q) : TrackerState × Option TrackErr :=
  if rebuild_interval ≤ s.faces_since_rebuild then
    match cleanup_old_faces s now with
    | (s2, some e) => (s2, some e)
    | (s2, none) =>
        let s3 := consolidate_duplicate_ids s2
        ({ rebuildIndex s3 with faces_since_rebuild := 0 }, none)
  else (s, none)

/-- Periodic maintenance (lines 448-470): consolidation whenever
`faces_since_rebuild % 20 == 0` (including 0), then cleanup + consolidation +
index rebuild when `faces_since_rebuild ≥ 100`. -/
def maintenance (s : TrackerState) (now : Q) : TrackerState × Option TrackErr :=
  if s.faces_since_rebuild % consolidation_check_interval = 0 then
    maintenanceRebuild (consolidate_duplicate_ids s) now
  else maintenanceRebuild s now

/-- Lines 407-472: everything after the assignment decision — bbox smoothing and
bookkeeping, first-time watchlist check, periodic maintenance, and the return
value `(assigned_id, suspicious?, smoothed bbox)`. -/
def processTail (s : TrackerState) (assigned : Option Nat) (bbox : BBox)
    (stream_id : String) (now : Q) :
    TrackerState × Except TrackErr (Option Nat × Bool × BBox) :=
  let pu := postUpdate s assigned bbox stream_id now
  match dbCheckStage pu.1 assigned with
  | (s2, some e) => (s2, .error e)
  | (s2, none) =>
      match maintenance s2 now with
      | (s3, some e) => (s3, .error e)
      | (s3, none) =>
          (s3, .ok (assigned, (alget s3.id_suspicious_status assigned).getD false,
                    pu.2))

/-- `process_face` (server.py lines 136-472).  The state is returned alongside the
result even on an error, since Python mutates in place and the caller's
`except` keeps the tracker alive with those mutations. -/
def process_face (s : TrackerState) (face_embedding : Vec) (bbox : BBox)
    (stream_id : String) (now : Q) :
    TrackerState × Except TrackErr (Option Nat × Bool × BBox) :=
  if norm2V face_embedding = q 0 1 then (s, .error .zeroNorm)
  else
    let queryEmb := normalizeV face_embedding
    if decide (bbox.x2 - bbox.x1 < min_face_size) ||
       decide (bbox.y2 - bbox.y1 < min_face_size) then
      (s, .ok (none, false, bbox))
    else
      let cd := stepC s bbox stream_id now
      let d := stepD s queryEmb bbox now cd.1 cd.2
      let s1 := { s with relink_tracks := d.relink }
      match d.assigned with
      | some aid =>
          match emaStage s1 aid d.best_sim queryEmb with
          | (s2, some e) => (s2, .error e)
          | (s2, none) => processTail s2 (some aid) bbox stream_id now
      | none =>
          match pendingStage s1 queryEmb bbox stream_id now d.best_sim with
          | (s2, .ret r) => (s2, .ok r)
          | (s2, .cont a2 _) => processTail s2 a2 bbox stream_id now

/-! ## Concrete scenario data

All embeddings below are exact unit vectors over `Q`, engineered so that every
renormalization performed by the traced calls lands on a rational of
perfect-square numerator and denominator, making `Q.sqrtApprox` exact. -/

/-- The tracker state right after `SharedFaceTracker.__init__` with an empty
watchlist. -/
def emptyState : TrackerState := ⟨[], 0, [], [], [], [], [], [], [], [], [], [], [], 0, []⟩

/-- The unit embedding `e = (1,0,0,0)`. -/
def unitE : Vec := [q 1 1, q 0 1, q 0 1, q 0 1]

/-- The all-zero raw embedding (for the zero-norm claim). -/
def zeroEmb : Vec := [q 0 1, q 0 1, q 0 1, q 0 1]

/-- A bbox smaller than `min_face_size`. -/
def smallBBox : BBox := ⟨0, 0, 10, 10⟩

/-- Scenario 1 of the spec: three observations of `e` from stream `s1`. -/
def c1_b1 : BBox := ⟨100, 100, 200, 200⟩

def c1_b2 : BBox := ⟨102, 100, 202, 200⟩

def c1_b3 : BBox := ⟨105, 100, 205, 200⟩

def c1_run1 : TrackerState × Except TrackErr (Option Nat × Bool × BBox) :=
  process_face emptyState unitE c1_b1 "s1" (q 0 1)

def c1_run2 : TrackerState × Except TrackErr (Option Nat × Bool × BBox) :=
  process_face c1_run1.1 unitE c1_b2 "s1" (q 1 10)

def c1_run3 : TrackerState × Except TrackErr (Option Nat × Bool × BBox) :=
  process_face c1_run2.1 unitE c1_b3 "s1" (q 2 10)

/-- Scenario 3 of the spec continued from scenario 1: the first observation of
the same embedding after a 4.8 s silence (last_seen of id 0 is 0.2). -/
def c5_run : TrackerState × Except TrackErr (Option Nat × Bool × BBox) :=
  process_face c1_run3.1 unitE ⟨108, 100, 208, 200⟩ "s1" (q 5 1)

/-- A unit vector at cosine exactly 0.8 from `unitE` (so the Step-G broadcast
threshold 0.65 is exceeded while the pending-stage 0.8 shortcut is not). -/
def simE45 : Vec := [q 4 5, q 3 5, q 0 1, q 0 1]

/-- One active identity owned by stream `s2`, spatially far from the upcoming
observation, probation-free: the observation below reaches Step G with broadcast
maximum 0.8 and an unsatisfied probation. -/
def c2_state : TrackerState :=
  { index := [(0, unitE)], next_id := 1, id2emb := [(0, unitE)],
    id_checked_in_db := [(some 0, true)], id_suspicious_status := [(some 0, false)],
    suspicious_map := [], id2last_bbox := [(some 0, ⟨1000, 1000, 1100, 1100⟩)],
    id2last_seen := [(some 0, q 100 1)], id2stream := [(some 0, "s2")],
    pending_tracks := [], lifetime_ids := [0], lifetime_suspicious_ids := [],
    relink_tracks := [], faces_since_rebuild := 1, stored_embeddings := [] }

def c2_run : TrackerState × Except TrackErr (Option Nat × Bool × BBox) :=
  process_face c2_state simE45 ⟨100, 100, 200, 200⟩ "s1" (q 201 2)

/-- The same state with a nonempty watchlist (one stored row). -/
def c2_state_wl : TrackerState := { c2_state with stored_embeddings := [unitE] }

def c2_run_wl : TrackerState × Except TrackErr (Option Nat × Bool × BBox) :=
  process_face c2_state_wl simE45 ⟨100, 100, 200, 200⟩ "s1" (q 201 2)

/-- A unit vector at cosine 24/25 = 0.96 from `unitE`. -/
def simE96 : Vec := [q 24 25, q 7 25, q 0 1, q 0 1]

/-- One active identity (embedding `unitE`, stream `s2`, far away) plus a pending
track with count 2 at the cell of the upcoming observation: the promoting
observation has cosine 0.96 with the active identity. -/
def c3_state : TrackerState :=
  { index := [(0, unitE)], next_id := 1, id2emb := [(0, unitE)],
    id_checked_in_db := [(some 0, true)], id_suspicious_status := [(some 0, false)],
    suspicious_map := [], id2last_bbox := [(some 0, ⟨1000, 1000, 1100, 1100⟩)],
    id2last_seen := [(some 0, q 100 1)], id2stream := [(some 0, "s2")],
    pending_tracks := [(("s1", 2, 2), ⟨2, q 499 5, q 999 10, simE96, ⟨100, 100, 200, 200⟩⟩)],
    lifetime_ids := [0], lifetime_suspicious_ids := [],
    relink_tracks := [], faces_since_rebuild := 1, stored_embeddings := [] }

def c3_run : TrackerState × Except TrackErr (Option Nat × Bool × BBox) :=
  process_face c3_state simE96 ⟨100, 100, 200, 200⟩ "s1" (q 100 1)

/-- A unit vector at cosine 263/738 from `unitE`, chosen so that the claimed EMA
blend `normalize(0.82·e + 0.18·q)` is exactly rational. -/
def c6_query : Vec := [q 263 738, q 689 738, q 27 738, q 5 738]

/-- One recent identity in the same stream whose last bbox overlaps the upcoming
observation with IoU ≈ 0.23 (> 0.2) while the centers are 250 px apart (> 120):
Step C fails, Step F fires. -/
def c6_state : TrackerState :=
  { index := [(0, unitE)], next_id := 1, id2emb := [(0, unitE)],
    id_checked_in_db := [(some 0, true)], id_suspicious_status := [(some 0, false)],
    suspicious_map := [], id2last_bbox := [(some 0, ⟨0, 0, 400, 400⟩)],
    id2last_seen := [(some 0, q 999 10)], id2stream := [(some 0, "s1")],
    pending_tracks := [], lifetime_ids := [0], lifetime_suspicious_ids := [],
    relink_tracks := [], faces_since_rebuild := 1, stored_embeddings := [] }

def c6_run : TrackerState × Except TrackErr (Option Nat × Bool × BBox) :=
  process_face c6_state c6_query ⟨250, 0, 650, 400⟩ "s1" (q 100 1)

/-- The adaptive EMA weight for the Step-F nominal similarity 0.6. -/
def c6_w : Q := Q.min (q 1 2) (Q.mul (q 3 5) (q 3 10))

/-- An identity that is suspicious but whose own watchlist check has not run yet
(`checked_in_db = false`) — the state produced by a consolidation that merged a
suspicious identity into a not-yet-checked primary. -/
def c7_state : TrackerState :=
  { index := [(0, unitE)], next_id := 1, id2emb := [(0, unitE)],
    id_checked_in_db := [(some 0, false)], id_suspicious_status := [(some 0, true)],
    suspicious_map := [(0, (0, q 7 10))],
    id2last_bbox := [(some 0, ⟨100, 100, 200, 200⟩)],
    id2last_seen := [(some 0, q 100 1)], id2stream := [(some 0, "s1")],
    pending_tracks := [], lifetime_ids := [0], lifetime_suspicious_ids := [0],
    relink_tracks := [], faces_since_rebuild := 1, stored_embeddings := [] }

def c7_run : TrackerState × Except TrackErr (Option Nat × Bool × BBox) :=
  process_face c7_state unitE ⟨102, 100, 202, 200⟩ "s1" (q 201 2)

/-- A unit vector at cosine 253/350 ≈ 0.723 from `unitE` (above the 0.65
consolidation threshold, below 0.8), chosen so that the 0.7/0.3 merge blend
renormalizes exactly (the blend's norm is 0.94). -/
def simE723 : Vec := [q 253 350, q 239 350, q 37 350, q 1 350]

/-- A unit vector orthogonal-ish to both (cosine 0 and 1/350). -/
def unitW : Vec := [q 0 1, q 0 1, q 0 1, q 1 1]

/-- Two mergeable identities (cosine 253/350 > 0.65) and `faces_since_rebuild = 0`:
the next call that reaches maintenance runs a consolidation pass even though it
creates nothing. -/
def c8_state : TrackerState :=
  { index := [(0, unitE), (1, simE723)], next_id := 2,
    id2emb := [(0, unitE), (1, simE723)],
    id_checked_in_db := [(some 0, true), (some 1, true)],
    id_suspicious_status := [(some 0, false), (some 1, false)],
    suspicious_map := [],
    id2last_bbox := [(some 0, ⟨100, 100, 200, 200⟩), (some 1, ⟨500, 500, 550, 550⟩)],
    id2last_seen := [(some 0, q 100 1), (some 1, q 10 1)],
    id2stream := [(some 0, "s1"), (some 1, "s2")],
    pending_tracks := [], lifetime_ids := [0, 1], lifetime_suspicious_ids := [],
    relink_tracks := [], faces_since_rebuild := 0, stored_embeddings := [] }

def c8_run : TrackerState × Except TrackErr (Option Nat × Bool × BBox) :=
  process_face c8_state unitE ⟨102, 100, 202, 200⟩ "s1" (q 201 2)

/-- The mergeable pair with the counter at 19: the next identity creation brings
it to 20 and consolidation fires. -/
def c8_stateA : TrackerState :=
  { c8_state with
    faces_since_rebuild := 19,
    id2last_seen := [(some 0, q 10 1), (some 1, q 10 1)] }

def c8_runA : TrackerState × Except TrackErr (Option Nat × Bool × BBox) :=
  process_face c8_stateA unitW ⟨700, 700, 800, 800⟩ "s9" (q 201 2)

/-- The mergeable pair with the counter at 1: a non-creating reuse call leaves the
counter at 1 and no consolidation runs. -/
def c8_stateB : TrackerState := { c8_state with faces_since_rebuild := 1 }

def c8_runB : TrackerState × Except TrackErr (Option Nat × Bool × BBox) :=
  process_face c8_stateB unitE ⟨102, 100, 202, 200⟩ "s1" (q 201 2)

/-- A unit vector at cosine 3/5 from `unitE` and 0.98 from `simE723`. -/
def simE60 : Vec := [q 3 5, q 4 5, q 0 1, q 0 1]

/-- Three identities: 0-1 merge (cosine 253/350 > 0.65); 0-2 do not (cosine 3/5);
after the merge, 0's blended embedding has cosine 357/470 ≈ 0.76 with survivor 2
while their last-seen times coincide. -/
def c9_state : TrackerState :=
  { index := [(0, unitE), (1, simE723), (2, simE60)], next_id := 3,
    id2emb := [(0, unitE), (1, simE723), (2, simE60)],
    id_checked_in_db := [(some 0, true), (some 1, true), (some 2, true)],
    id_suspicious_status := [(some 0, false), (some 1, false), (some 2, false)],
    suspicious_map := [],
    id2last_bbox := [(some 0, ⟨0, 0, 50, 50⟩), (some 1, ⟨500, 500, 550, 550⟩),
                     (some 2, ⟨600, 0, 650, 50⟩)],
    id2last_seen := [(some 0, q 100 1), (some 1, q 10 1), (some 2, q 100 1)],
    id2stream := [(some 0, "s1"), (some 1, "s2"), (some 2, "s3")],
    pending_tracks := [], lifetime_ids := [0, 1, 2], lifetime_suspicious_ids := [],
    relink_tracks := [], faces_since_rebuild := 5, stored_embeddings := [] }

def c9_post : TrackerState := consolidate_duplicate_ids c9_state

/-! ## Predicates used by the invariant claims -/

/-- The vector-index id set coincides with the key set of `id2emb` (global
invariant of the spec, claim C4). -/
def domEq (s : TrackerState) : Prop :=
  ∀ k : Nat, k ∈ alkeys s.index ↔ k ∈ alkeys s.id2emb

/-- The consolidation merge condition of two ids evaluated on the data a given
state holds for them (embeddings, last bboxes, last-seen times). -/
def mergeCondPre (s : TrackerState) (i j : Nat) : Bool :=
  consMergeCond s i ((alget s.id2emb i).getD []) j ((alget s.id2emb j).getD [])

/-- A Boolean flag entry is "sticky at `v`": it currently reads `v`, or its key
has been removed.  The monotonicity claims about the suspicious and
checked-in-db flags are phrased as preservation of this predicate (claim C7). -/
def sticky {α β : Type} [DecidableEq α] (l : List (α × β)) (k : α) (v : β) : Prop :=
  alget l k = some v ∨ alget l k = none

/-- A state transition preserves stickiness of identity `aid`'s suspicious flag
at `true` and of its checked-in-db flag at any value (claim C7). -/
def stickyStep (s s' : TrackerState) (aid : Nat) : Prop :=
  (sticky s.id_suspicious_status (some aid) true →
    sticky s'.id_suspicious_status (some aid) true) ∧
  (∀ v : Bool, sticky s.id_checked_in_db (some aid) v →
    sticky s'.id_checked_in_db (some aid) v)

end LiveDetect

namespace LiveDetect

/-! ## Association-list and key-set lemmas -/

theorem alhas_iff_mem {α β : Type} [DecidableEq α] {l : List (α × β)} {k : α} :
    alhas l k = true ↔ k ∈ alkeys l := by
  simp [alhas, alkeys, List.any_eq_true, List.mem_map]

theorem alget_nil {α β : Type} [DecidableEq α] (k : α) :
    alget ([] : List (α × β)) k = none := rfl

theorem alget_cons_eq {α β : Type} [DecidableEq α] (p : α × β) (t : List (α × β))
    (k : α) (h : p.1 = k) : alget (p :: t) k = some p.2 := by
  unfold alget
  rw [List.find?_cons_of_pos]
  · rfl
  · simp [h]

theorem alget_cons_ne {α β : Type} [DecidableEq α] (p : α × β) (t : List (α × β))
    (k : α) (h : ¬p.1 = k) : alget (p :: t) k = alget t k := by
  unfold alget
  rw [List.find?_cons_of_neg]
  simp [h]

theorem alset_cons_eq {α β : Type} [DecidableEq α] (p : α × β) (t : List (α × β))
    (k : α) (v : β) (h : p.1 = k) : alset (p :: t) k v = (k, v) :: t := by
  simp [alset, h]

theorem alset_cons_ne {α β : Type} [DecidableEq α] (p : α × β) (t : List (α × β))
    (k : α) (v : β) (h : ¬p.1 = k) : alset (p :: t) k v = p :: alset t k v := by
  simp [alset, h]

theorem mem_alkeys_alset {α β : Type} [DecidableEq α] (l : List (α × β)) (k a : α) (v : β) :
    a ∈ alkeys (alset l k v) ↔ a = k ∨ a ∈ alkeys l := by
  induction l with
  | nil => simp [alset, alkeys]
  | cons p t ih =>
      by_cases h : p.1 = k
      · subst h
        rw [alset_cons_eq p t p.1 v rfl]
        simp only [alkeys, List.map_cons, List.mem_cons]
        tauto
      · rw [alset_cons_ne p t k v h]
        simp only [alkeys, List.map_cons, List.mem_cons] at ih ⊢
        rw [ih]
        tauto

theorem alget_alset_self {α β : Type} [DecidableEq α] (l : List (α × β)) (k : α) (v : β) :
    alget (alset l k v) k = some v := by
  induction l with
  | nil => exact alget_cons_eq (k, v) [] k rfl
  | cons p t ih =>
      by_cases h : p.1 = k
      · rw [alset_cons_eq p t k v h, alget_cons_eq (k, v) t k rfl]
      · rw [alset_cons_ne p t k v h, alget_cons_ne p (alset t k v) k h, ih]

theorem alget_alset_ne {α β : Type} [DecidableEq α] (l : List (α × β)) (k k' : α) (v : β)
    (h : ¬k' = k) : alget (alset l k v) k' = alget l k' := by
  induction l with
  | nil =>
      rw [show alset ([] : List (α × β)) k v = [(k, v)] from rfl,
        alget_cons_ne (k, v) [] k' (fun he => h he.symm)]
  | cons p t ih =>
      by_cases hp : p.1 = k
      · rw [alset_cons_eq p t k v hp, alget_cons_ne (k, v) t k' (fun he => h he.symm),
          alget_cons_ne p t k' (fun he => h (by rw [← he, hp]))]
      · by_cases hk' : p.1 = k'
        · rw [alset_cons_ne p t k v hp, alget_cons_eq p (alset t k v) k' hk',
            alget_cons_eq p t k' hk']
        · rw [alset_cons_ne p t k v hp, alget_cons_ne p (alset t k v) k' hk',
            alget_cons_ne p t k' hk', ih]

theorem mem_alkeys_alremove {α β : Type} [DecidableEq α] (l : List (α × β)) (k a : α) :
    a ∈ alkeys (alremove l k) ↔ a ∈ alkeys l ∧ ¬a = k := by
  simp only [alremove, alkeys, List.mem_map, List.mem_filter]
  constructor
  · rintro ⟨p, ⟨hp, hne⟩, rfl⟩
    simp only [Bool.not_eq_true', decide_eq_false_iff_not] at hne
    exact ⟨⟨p, hp, rfl⟩, hne⟩
  · rintro ⟨⟨p, hp, rfl⟩, hne⟩
    refine ⟨p, ⟨hp, ?_⟩, rfl⟩
    simp [hne]

theorem mem_alkeys_idxAdd (idx : List (Nat × Vec)) (i a : Nat) (v : Vec) :
    a ∈ alkeys (idxAdd idx i v) ↔ a ∈ alkeys idx ∨ a = i := by
  simp [idxAdd, alkeys, List.mem_map, List.mem_append]

theorem mem_alkeys_idxRemove (idx : List (Nat × Vec)) (i a : Nat) :
    a ∈ alkeys (idxRemove idx i) ↔ a ∈ alkeys idx ∧ ¬a = i := by
  simp only [idxRemove, alkeys, List.mem_map, List.mem_filter]
  constructor
  · rintro ⟨p, ⟨hp, hne⟩, rfl⟩
    simp only [Bool.not_eq_true', decide_eq_false_iff_not] at hne
    exact ⟨⟨p, hp, rfl⟩, hne⟩
  · rintro ⟨⟨p, hp, rfl⟩, hne⟩
    refine ⟨p, ⟨hp, ?_⟩, rfl⟩
    simp [hne]

/-! ## C4: preservation of the index-domain invariant -/

theorem domEq_createIdentity (s : TrackerState) (emb : Vec) (h : domEq s) :
    domEq (createIdentity s emb).1 := by
  intro k
  show k ∈ alkeys (idxAdd s.index s.next_id emb) ↔
    k ∈ alkeys (alset s.id2emb s.next_id emb)
  rw [mem_alkeys_idxAdd, mem_alkeys_alset]
  have := h k
  tauto

theorem domEq_sharedTail (s : TrackerState) (qe : Vec) (bbox : BBox) (now : Q)
    (a : Option Nat) (b : Q) (oc : Option Nat) (rn : Bool) (h : domEq s) :
    domEq (sharedTail s qe bbox now a b oc rn).1 := by
  unfold sharedTail
  split
  · exact h
  · split
    · split
      · split
        · exact h
        · dsimp only
          split
          · exact h
          · exact h
      · split
        · exact h
        · split
          · exact h
          · exact domEq_createIdentity s qe h
    · exact domEq_createIdentity s qe h

theorem domEq_pendingStage (s : TrackerState) (qe : Vec) (bbox : BBox)
    (sid : String) (now : Q) (b0 : Q) (h : domEq s) :
    domEq (pendingStage s qe bbox sid now b0).1 := by
  unfold pendingStage
  dsimp only
  split
  · exact domEq_sharedTail _ _ _ _ _ _ _ _ h
  · split
    · split
      · exact h
      · exact domEq_sharedTail _ _ _ _ _ _ _ _ (domEq_createIdentity _ _ h)
    · split
      · exact domEq_sharedTail _ _ _ _ _ _ _ _ h
      · exact domEq_sharedTail _ _ _ _ _ _ _ _ h

theorem domEq_emaStage (s : TrackerState) (aid : Nat) (b : Q) (qe : Vec)
    (h : domEq s) : domEq (emaStage s aid b qe).1 := by
  unfold emaStage
  split
  · exact h
  · intro k
    show k ∈ alkeys (idxAdd (idxRemove s.index aid) aid _) ↔
      k ∈ alkeys (alset s.id2emb aid _)
    rw [mem_alkeys_idxAdd, mem_alkeys_idxRemove, mem_alkeys_alset]
    have := h k
    by_cases hk : k = aid <;> tauto

theorem domEq_postUpdate (s : TrackerState) (a : Option Nat) (bbox : BBox)
    (sid : String) (now : Q) (h : domEq s) : domEq (postUpdate s a bbox sid now).1 := h

theorem domEq_dbCheckStage (s : TrackerState) (a : Option Nat) (h : domEq s) :
    domEq (dbCheckStage s a).1 := by
  unfold dbCheckStage
  repeat' first
    | exact h
    | split
    | dsimp only

theorem domEq_removeIdEverywhere (s : TrackerState) (oid : Nat) (h : domEq s) :
    domEq (removeIdEverywhere s oid) := by
  intro k
  show k ∈ alkeys (idxRemove s.index oid) ↔ k ∈ alkeys (alremove s.id2emb oid)
  rw [mem_alkeys_idxRemove, mem_alkeys_alremove]
  have := h k
  tauto

theorem domEq_fold_removeIdEverywhere (l : List Nat) :
    ∀ (s : TrackerState), domEq s → domEq (l.foldl removeIdEverywhere s) := by
  induction l with
  | nil => exact fun s h => h
  | cons x t ih => exact fun s h => ih _ (domEq_removeIdEverywhere s x h)

theorem suspTransferOne_index (p : Nat) (st : TrackerState) (oid : Nat) :
    (suspTransferOne p st oid).index = st.index ∧
    (suspTransferOne p st oid).id2emb = st.id2emb := by
  unfold suspTransferOne
  split
  · dsimp only
    split <;> exact ⟨rfl, rfl⟩
  · exact ⟨rfl, rfl⟩

theorem fold_suspTransferOne_index (p : Nat) (l : List Nat) :
    ∀ (st : TrackerState),
      (l.foldl (suspTransferOne p) st).index = st.index ∧
      (l.foldl (suspTransferOne p) st).id2emb = st.id2emb := by
  induction l with
  | nil => exact fun st => ⟨rfl, rfl⟩
  | cons x t ih =>
      intro st
      have h1 := suspTransferOne_index p st x
      have h2 := ih (suspTransferOne p st x)
      exact ⟨h2.1.trans h1.1, h2.2.trans h1.2⟩

theorem fold_remove_mem (l : List Nat) :
    ∀ (s : TrackerState) (k : Nat),
      (k ∈ alkeys (l.foldl removeIdEverywhere s).index ↔
        k ∈ alkeys s.index ∧ k ∉ l) ∧
      (k ∈ alkeys (l.foldl removeIdEverywhere s).id2emb ↔
        k ∈ alkeys s.id2emb ∧ k ∉ l) := by
  induction l with
  | nil => intro s k; simp
  | cons x t ih =>
      intro s k
      have h1 := ih (removeIdEverywhere s x) k
      have h2 : k ∈ alkeys (removeIdEverywhere s x).index ↔
          k ∈ alkeys s.index ∧ ¬k = x := mem_alkeys_idxRemove s.index x k
      have h3 : k ∈ alkeys (removeIdEverywhere s x).id2emb ↔
          k ∈ alkeys s.id2emb ∧ ¬k = x := mem_alkeys_alremove s.id2emb x k
      simp only [List.foldl_cons, List.mem_cons]
      constructor
      · rw [h1.1, h2]; tauto
      · rw [h1.2, h3]; tauto

theorem not_mem_filter_ne_self (group : List Nat) (pr : Nat) :
    pr ∉ group.filter (fun i => !(decide (i = pr))) := by
  intro hmem
  simp [List.mem_filter] at hmem

theorem domEq_applyMerge (s : TrackerState) (id1 : Nat) (others : List Nat)
    (h : domEq s) : domEq (applyMerge s id1 others) := by
  unfold applyMerge
  split
  · exact h
  · intro k
    set pr := (id1 :: others).foldl Nat.min id1 with hpr
    set oth := (id1 :: others).filter (fun i => !(decide (i = pr))) with hoth
    set merged := oth.foldl
      (fun p oid => blendEmb p ((alget s.id2emb oid).getD [])) ((alget s.id2emb pr).getD [])
      with hmerged
    set s1 : TrackerState := { s with id2emb := alset s.id2emb pr merged } with hs1
    set s2 := oth.foldl (suspTransferOne pr) s1 with hs2
    set s3 := oth.foldl removeIdEverywhere s2 with hs3
    show k ∈ alkeys (idxAdd (idxRemove s3.index pr) pr merged) ↔ k ∈ alkeys s3.id2emb
    rw [mem_alkeys_idxAdd, mem_alkeys_idxRemove, (fold_remove_mem oth s2 k).1,
      (fold_remove_mem oth s2 k).2, (fold_suspTransferOne_index pr oth s1).1,
      (fold_suspTransferOne_index pr oth s1).2]
    show ((k ∈ alkeys s.index ∧ k ∉ oth) ∧ ¬k = pr) ∨ k = pr ↔
      k ∈ alkeys (alset s.id2emb pr merged) ∧ k ∉ oth
    rw [mem_alkeys_alset]
    have hno := not_mem_filter_ne_self (id1 :: others) pr
    have hk := h k
    by_cases hkp : k = pr
    · subst hkp; rw [← hoth] at hno; tauto
    · tauto

theorem domEq_consGo (todo : List Nat) :
    ∀ (s : TrackerState) (cons : List Nat), domEq s → domEq (consGo s cons todo) := by
  induction todo with
  | nil => exact fun s _ h => h
  | cons id1 rest ih =>
      intro s cns h
      unfold consGo
      split
      · exact ih s cns h
      · exact ih _ _ (domEq_applyMerge _ _ _ h)

theorem domEq_consolidate (s : TrackerState) (h : domEq s) :
    domEq (consolidate_duplicate_ids s) := by
  unfold consolidate_duplicate_ids
  split
  · exact h
  · exact domEq_consGo _ _ _ h

theorem domEq_cleanupRemove (l : List (Option Nat)) :
    ∀ (s : TrackerState), domEq s → domEq (cleanupRemove s l).1 := by
  induction l with
  | nil => exact fun s h => h
  | cons x t ih =>
      intro s h
      match x with
      | none => exact h
      | some fid => exact ih _ (domEq_removeIdEverywhere s fid h)

theorem domEq_cleanup (s : TrackerState) (now : Q) (h : domEq s) :
    domEq (cleanup_old_faces s now).1 := by
  unfold cleanup_old_faces
  dsimp only
  split
  · next heq =>
      have := domEq_cleanupRemove
        ((s.id2last_seen.filter (fun p => Q.blt face_timeout (Q.sub now p.2))).map Prod.fst) s h
      rw [heq] at this
      exact this
  · next heq =>
      have := domEq_cleanupRemove
        ((s.id2last_seen.filter (fun p => Q.blt face_timeout (Q.sub now p.2))).map Prod.fst) s h
      rw [heq] at this
      exact this

theorem domEq_maintenanceRebuild (s : TrackerState) (now : Q) (h : domEq s) :
    domEq (maintenanceRebuild s now).1 := by
  unfold maintenanceRebuild
  split
  · split
    · next heq =>
        have := domEq_cleanup s now h
        rw [heq] at this
        exact this
    · exact fun k => Iff.rfl
  · exact h

theorem domEq_maintenance (s : TrackerState) (now : Q) (h : domEq s) :
    domEq (maintenance s now).1 := by
  unfold maintenance
  split
  · exact domEq_maintenanceRebuild _ now (domEq_consolidate s h)
  · exact domEq_maintenanceRebuild s now h

theorem domEq_processTail (s : TrackerState) (a : Option Nat) (bbox : BBox)
    (sid : String) (now : Q) (h : domEq s) :
    domEq (processTail s a bbox sid now).1 := by
  unfold processTail
  dsimp only
  have h1 : domEq (postUpdate s a bbox sid now).1 := domEq_postUpdate s a bbox sid now h
  split
  · next heq =>
      have := domEq_dbCheckStage (postUpdate s a bbox sid now).1 a h1
      rw [heq] at this
      exact this
  · next s2 heq =>
      have h2 := domEq_dbCheckStage (postUpdate s a bbox sid now).1 a h1
      rw [heq] at h2
      split
      · next heq2 =>
          have := domEq_maintenance _ now h2
          rw [heq2] at this
          exact this
      · next heq2 =>
          have := domEq_maintenance _ now h2
          rw [heq2] at this
          exact this

theorem domEq_process_face (s : TrackerState) (emb : Vec) (bbox : BBox)
    (sid : String) (now : Q) (h : domEq s) :
    domEq (process_face s emb bbox sid now).1 := by
  unfold process_face
  split
  · exact h
  · split
    · exact h
    · dsimp only
      split
      · next aid heq =>
          have hd := domEq_emaStage
            { s with relink_tracks :=
                (stepD s (normalizeV emb) bbox now (stepC s bbox sid now).1
                  (stepC s bbox sid now).2).relink }
            aid
            (stepD s (normalizeV emb) bbox now (stepC s bbox sid now).1
              (stepC s bbox sid now).2).best_sim
            (normalizeV emb) h
          split
          · next heq2 =>
              rw [heq2] at hd
              exact hd
          · next s2 heq2 =>
              rw [heq2] at hd
              exact domEq_processTail _ _ bbox sid now hd
      · next heq =>
          have hd := domEq_pendingStage
            { s with relink_tracks :=
                (stepD s (normalizeV emb) bbox now (stepC s bbox sid now).1
                  (stepC s bbox sid now).2).relink }
            (normalizeV emb) bbox sid now
            (stepD s (normalizeV emb) bbox now (stepC s bbox sid now).1
              (stepC s bbox sid now).2).best_sim h
          split
          · next heq2 =>
              rw [heq2] at hd
              exact hd
          · next s2 a2 b2 heq2 =>
              rw [heq2] at hd
              exact domEq_processTail _ _ bbox sid now hd

/-! ## C3: the pending-stage broadcast reuse below the promotion count -/

theorem broadcastBest_set_pending (s : TrackerState) (x : List (CellKey × PendingTrack))
    (qe : Vec) : broadcastBest { s with pending_tracks := x } qe = broadcastBest s qe := rfl

theorem id2emb_isEmpty_false_of_broadcast (s : TrackerState) (qe : Vec) (mid : Nat)
    (ms : Q) (hbb : broadcastBest s qe = some (mid, ms)) : s.id2emb.isEmpty = false := by
  cases hl : s.id2emb with
  | nil => unfold broadcastBest at hbb; rw [hl] at hbb; cases hbb
  | cons p rest => rfl

theorem sharedTail_broadcast_reuse (s : TrackerState) (qe : Vec) (bbox : BBox)
    (now : Q) (b : Q) (mid : Nat) (ms : Q)
    (hbb : broadcastBest s qe = some (mid, ms))
    (hms' : Q.blt similarity_reuse_threshold ms = true) :
    (sharedTail s qe bbox now (some mid) b none false).2 = .cont (some mid) b ∧
    (sharedTail s qe bbox now (some mid) b none false).1.id2emb = s.id2emb ∧
    (sharedTail s qe bbox now (some mid) b none false).1.index = s.index ∧
    (sharedTail s qe bbox now (some mid) b none false).1.next_id = s.next_id := by
  unfold sharedTail
  try dsimp only
  rw [hbb]
  try dsimp only
  rw [hms']
  try dsimp only
  refine ⟨?_, ?_, ?_, ?_⟩
  all_goals split <;> (try split) <;> (try split) <;> first
    | rfl
    | contradiction

/-! ## C6: localizing the embedding update -/

theorem dbCheckStage_preserves (s : TrackerState) (a : Option Nat) :
    (dbCheckStage s a).1.id2emb = s.id2emb ∧
    (dbCheckStage s a).1.index = s.index ∧
    (dbCheckStage s a).1.faces_since_rebuild = s.faces_since_rebuild := by
  unfold dbCheckStage
  repeat' first
    | exact ⟨rfl, rfl, rfl⟩
    | split
    | dsimp only

theorem maintenance_noop (s : TrackerState) (now : Q)
    (h0 : ¬s.faces_since_rebuild % consolidation_check_interval = 0)
    (h1 : s.faces_since_rebuild < rebuild_interval) :
    maintenance s now = (s, none) := by
  unfold maintenance maintenanceRebuild
  rw [if_neg h0, if_neg (Nat.not_le.mpr h1)]

theorem processTail_preserves (s : TrackerState) (a : Option Nat) (bbox : BBox)
    (sid : String) (now : Q)
    (h0 : ¬s.faces_since_rebuild % consolidation_check_interval = 0)
    (h1 : s.faces_since_rebuild < rebuild_interval) :
    (processTail s a bbox sid now).1.id2emb = s.id2emb ∧
    (processTail s a bbox sid now).1.index = s.index := by
  unfold processTail
  try dsimp only
  have hp := dbCheckStage_preserves (postUpdate s a bbox sid now).1 a
  split
  · next heq =>
      rw [heq] at hp
      exact ⟨hp.1, hp.2.1⟩
  · next s2 heq =>
      rw [heq] at hp
      have hm : maintenance s2 now = (s2, none) := by
        apply maintenance_noop
        · rw [hp.2.2]; exact h0
        · rw [hp.2.2]; exact h1
      rw [hm]
      exact ⟨hp.1, hp.2.1⟩

theorem emaStage_eq (s : TrackerState) (aid : Nat) (best : Q) (qe : Vec) (old : Vec)
    (hold : alget s.id2emb aid = some old) :
    emaStage s aid best qe =
      ({ s with
         id2emb := alset s.id2emb aid (emaVec best old qe),
         index := idxAdd (idxRemove s.index aid) aid (emaVec best old qe) }, none) := by
  unfold emaStage
  rw [hold]

theorem alget_idx_refresh (idx : List (Nat × Vec)) (aid : Nat) (v : Vec) :
    alget (idxAdd (idxRemove idx aid) aid v) aid = some v := by
  unfold idxAdd alget
  rw [List.find?_append]
  have h1 : (idxRemove idx aid).find? (fun p => decide (p.1 = aid)) = none := by
    rw [List.find?_eq_none]
    intro x hx
    simp only [idxRemove, List.mem_filter, Bool.not_eq_true', decide_eq_false_iff_not] at hx
    simp [hx.2]
  rw [h1]
  simp [List.find?]

theorem sharedTail_id2emb_lookup (s : TrackerState) (qe : Vec) (bbox : BBox) (now : Q)
    (a : Option Nat) (b : Q) (oc : Option Nat) (rn : Bool) (aid : Nat)
    (hne : ¬aid = s.next_id) :
    alget (sharedTail s qe bbox now a b oc rn).1.id2emb aid = alget s.id2emb aid := by
  unfold sharedTail
  repeat' first
    | rfl
    | exact alget_alset_ne s.id2emb s.next_id aid qe hne
    | split
    | dsimp only

theorem sharedTail_faces (s : TrackerState) (qe : Vec) (bbox : BBox) (now : Q)
    (a : Option Nat) (b : Q) (oc : Option Nat) (rn : Bool) :
    (sharedTail s qe bbox now a b oc rn).1.faces_since_rebuild = s.faces_since_rebuild ∨
    (sharedTail s qe bbox now a b oc rn).1.faces_since_rebuild =
      s.faces_since_rebuild + 1 := by
  unfold sharedTail
  repeat' first
    | exact Or.inl rfl
    | exact Or.inr rfl
    | split
    | dsimp only

theorem pendingStage_id2emb_lookup (s : TrackerState) (qe : Vec) (bbox : BBox)
    (sid : String) (now : Q) (b0 : Q) (aid : Nat) (hlt : aid < s.next_id) :
    alget (pendingStage s qe bbox sid now b0).1.id2emb aid = alget s.id2emb aid := by
  have hne : ¬aid = s.next_id := Nat.ne_of_lt hlt
  have hne1 : ¬aid = s.next_id + 1 := by omega
  unfold pendingStage
  try dsimp only
  split
  · exact sharedTail_id2emb_lookup _ qe bbox now _ _ none false aid (by exact hne)
  · split
    · split
      · rfl
      · exact (sharedTail_id2emb_lookup _ qe bbox now _ _ none false aid
          (by exact hne1)).trans (alget_alset_ne s.id2emb s.next_id aid _ hne)
    · split
      · exact sharedTail_id2emb_lookup _ qe bbox now _ _ _ true aid (by exact hne)
      · exact sharedTail_id2emb_lookup _ qe bbox now _ _ none false aid (by exact hne)

theorem pendingStage_faces (s : TrackerState) (qe : Vec) (bbox : BBox)
    (sid : String) (now : Q) (b0 : Q) :
    (pendingStage s qe bbox sid now b0).1.faces_since_rebuild = s.faces_since_rebuild ∨
    (pendingStage s qe bbox sid now b0).1.faces_since_rebuild =
      s.faces_since_rebuild + 1 ∨
    (pendingStage s qe bbox sid now b0).1.faces_since_rebuild =
      s.faces_since_rebuild + 2 := by
  unfold pendingStage
  try dsimp only
  split
  · rcases sharedTail_faces _ qe bbox now _ _ none false with h | h
    · exact Or.inl h
    · exact Or.inr (Or.inl h)
  · split
    · split
      · exact Or.inl rfl
      · rcases sharedTail_faces _ qe bbox now _ _ none false with h | h
        · exact Or.inr (Or.inl h)
        · refine Or.inr (Or.inr ?_)
          rw [h]
          show s.faces_since_rebuild + 1 + 1 = s.faces_since_rebuild + 2
          omega
    · split
      · rcases sharedTail_faces _ qe bbox now _ _ _ true with h | h
        · exact Or.inl h
        · exact Or.inr (Or.inl h)
      · rcases sharedTail_faces _ qe bbox now _ _ none false with h | h
        · exact Or.inl h
        · exact Or.inr (Or.inl h)

/-! ## C7: stickiness of the suspicious and checked-in-db flags -/

theorem alremove_cons_eq {α β : Type} [DecidableEq α] (p : α × β) (t : List (α × β))
    (k : α) (h : p.1 = k) : alremove (p :: t) k = alremove t k := by
  simp [alremove, List.filter_cons, h]

theorem alremove_cons_ne {α β : Type} [DecidableEq α] (p : α × β) (t : List (α × β))
    (k : α) (h : ¬p.1 = k) : alremove (p :: t) k = p :: alremove t k := by
  simp [alremove, List.filter_cons, h]

theorem alget_alremove_self {α β : Type} [DecidableEq α] (l : List (α × β)) (k : α) :
    alget (alremove l k) k = none := by
  induction l with
  | nil => rfl
  | cons p t ih =>
      by_cases h : p.1 = k
      · rw [alremove_cons_eq p t k h]
        exact ih
      · rw [alremove_cons_ne p t k h, alget_cons_ne p (alremove t k) k h]
        exact ih

theorem alget_alremove_ne {α β : Type} [DecidableEq α] (l : List (α × β)) (k k' : α)
    (h : ¬k' = k) : alget (alremove l k) k' = alget l k' := by
  induction l with
  | nil => rfl
  | cons p t ih =>
      by_cases h1 : p.1 = k
      · rw [alremove_cons_eq p t k h1,
          alget_cons_ne p t k' (fun he => h (by rw [← he, h1])), ih]
      · by_cases h2 : p.1 = k'
        · rw [alremove_cons_ne p t k h1, alget_cons_eq p (alremove t k) k' h2,
            alget_cons_eq p t k' h2]
        · rw [alremove_cons_ne p t k h1, alget_cons_ne p (alremove t k) k' h2,
            alget_cons_ne p t k' h2, ih]

theorem sticky_alset {α β : Type} [DecidableEq α] (l : List (α × β)) (k k' : α) (v : β)
    (h : sticky l k v) : sticky (alset l k' v) k v := by
  by_cases he : k = k'
  · subst he
    exact Or.inl (alget_alset_self l k v)
  · unfold sticky at h ⊢
    rw [alget_alset_ne l k' k v he]
    exact h

theorem sticky_alremove {α β : Type} [DecidableEq α] (l : List (α × β)) (k k' : α)
    (v : β) (h : sticky l k v) : sticky (alremove l k') k v := by
  by_cases he : k = k'
  · subst he
    exact Or.inr (alget_alremove_self l k)
  · unfold sticky at h ⊢
    rw [alget_alremove_ne l k' k he]
    exact h

theorem stickyStep_refl (s : TrackerState) (aid : Nat) : stickyStep s s aid :=
  ⟨fun h => h, fun v h => h⟩

theorem stickyStep_trans {s1 s2 s3 : TrackerState} {aid : Nat}
    (h1 : stickyStep s1 s2 aid) (h2 : stickyStep s2 s3 aid) : stickyStep s1 s3 aid :=
  ⟨fun h => h2.1 (h1.1 h), fun v h => h2.2 v (h1.2 v h)⟩

theorem suspTransferOne_sticky (p : Nat) (st : TrackerState) (oid aid : Nat) :
    stickyStep st (suspTransferOne p st oid) aid := by
  unfold suspTransferOne
  split
  · try dsimp only
    split
    · exact ⟨fun h => sticky_alset st.id_suspicious_status (some aid) (some p) true h,
        fun v h => h⟩
    · exact ⟨fun h => sticky_alset st.id_suspicious_status (some aid) (some p) true h,
        fun v h => h⟩
  · exact stickyStep_refl st aid

theorem removeIdEverywhere_sticky (st : TrackerState) (oid aid : Nat) :
    stickyStep st (removeIdEverywhere st oid) aid :=
  ⟨fun h => sticky_alremove st.id_suspicious_status (some aid) (some oid) true h,
   fun v h => sticky_alremove st.id_checked_in_db (some aid) (some oid) v h⟩

theorem fold_suspTransferOne_sticky (p : Nat) (l : List Nat) :
    ∀ st aid, stickyStep st (List.foldl (suspTransferOne p) st l) aid := by
  induction l with
  | nil => intro st aid; exact stickyStep_refl st aid
  | cons x t ih =>
      intro st aid
      exact stickyStep_trans (suspTransferOne_sticky p st x aid)
        (ih (suspTransferOne p st x) aid)

theorem fold_removeIdEverywhere_sticky (l : List Nat) :
    ∀ st aid, stickyStep st (List.foldl removeIdEverywhere st l) aid := by
  induction l with
  | nil => intro st aid; exact stickyStep_refl st aid
  | cons x t ih =>
      intro st aid
      exact stickyStep_trans (removeIdEverywhere_sticky st x aid)
        (ih (removeIdEverywhere st x) aid)

theorem fold_then_fold_sticky (p : Nat) (l1 l2 : List Nat) (st st' : TrackerState)
    (aid : Nat)
    (h1 : st'.id_suspicious_status = st.id_suspicious_status)
    (h2 : st'.id_checked_in_db = st.id_checked_in_db) :
    stickyStep st (List.foldl removeIdEverywhere
      (List.foldl (suspTransferOne p) st' l1) l2) aid := by
  have hbase : stickyStep st st' aid := by
    unfold stickyStep
    rw [h1, h2]
    exact ⟨fun h => h, fun v h => h⟩
  exact stickyStep_trans hbase (stickyStep_trans
    (fold_suspTransferOne_sticky p l1 st' aid)
    (fold_removeIdEverywhere_sticky l2 _ aid))

theorem applyMerge_sticky (s : TrackerState) (id1 : Nat) (others : List Nat)
    (aid : Nat) : stickyStep s (applyMerge s id1 others) aid := by
  unfold applyMerge
  split
  · exact stickyStep_refl s aid
  · try dsimp only
    exact fold_then_fold_sticky _ _ _ s _ aid rfl rfl

theorem consGo_sticky (todo : List Nat) :
    ∀ s cons aid, stickyStep s (consGo s cons todo) aid := by
  induction todo with
  | nil => intro s cons aid; exact stickyStep_refl s aid
  | cons id1 rest ih =>
      intro s cons aid
      unfold consGo
      split
      · exact ih s cons aid
      · try dsimp only
        exact stickyStep_trans (applyMerge_sticky s id1 _ aid) (ih _ _ aid)

theorem consolidate_sticky (s : TrackerState) (aid : Nat) :
    stickyStep s (consolidate_duplicate_ids s) aid := by
  unfold consolidate_duplicate_ids
  split
  · exact stickyStep_refl s aid
  · exact consGo_sticky (alkeys s.id2emb) s [] aid

theorem cleanupRemove_sticky (l : List (Option Nat)) :
    ∀ s aid, stickyStep s (cleanupRemove s l).1 aid := by
  induction l with
  | nil => intro s aid; exact stickyStep_refl s aid
  | cons x t ih =>
      intro s aid
      cases x with
      | none => exact stickyStep_refl s aid
      | some fid =>
          exact stickyStep_trans (removeIdEverywhere_sticky s fid aid)
            (ih (removeIdEverywhere s fid) aid)

theorem cleanup_sticky (s : TrackerState) (now : Q) (aid : Nat) :
    stickyStep s (cleanup_old_faces s now).1 aid := by
  unfold cleanup_old_faces
  try dsimp only
  split
  · next s2 e heq =>
      have hc := cleanupRemove_sticky ((s.id2last_seen.filter
          (fun p => Q.blt face_timeout (Q.sub now p.2))).map Prod.fst) s aid
      rw [heq] at hc
      exact hc
  · next s2 heq =>
      have hc := cleanupRemove_sticky ((s.id2last_seen.filter
          (fun p => Q.blt face_timeout (Q.sub now p.2))).map Prod.fst) s aid
      rw [heq] at hc
      exact hc

theorem maintenanceRebuild_sticky (s : TrackerState) (now : Q) (aid : Nat) :
    stickyStep s (maintenanceRebuild s now).1 aid := by
  unfold maintenanceRebuild
  split
  · split
    · next s2 e heq =>
        have hc := cleanup_sticky s now aid
        rw [heq] at hc
        exact hc
    · next s2 heq =>
        have hc := cleanup_sticky s now aid
        rw [heq] at hc
        exact stickyStep_trans hc (consolidate_sticky s2 aid)
  · exact stickyStep_refl s aid

theorem maintenance_sticky (s : TrackerState) (now : Q) (aid : Nat) :
    stickyStep s (maintenance s now).1 aid := by
  unfold maintenance
  split
  · exact stickyStep_trans (consolidate_sticky s aid)
      (maintenanceRebuild_sticky (consolidate_duplicate_ids s) now aid)
  · exact maintenanceRebuild_sticky s now aid

theorem createIdentity_flags (s : TrackerState) (e : Vec) (aid : Nat)
    (hne : ¬aid = s.next_id) :
    alget (createIdentity s e).1.id_suspicious_status (some aid) =
      alget s.id_suspicious_status (some aid) ∧
    alget (createIdentity s e).1.id_checked_in_db (some aid) =
      alget s.id_checked_in_db (some aid) := by
  have hne' : ¬(some aid : Option Nat) = some s.next_id :=
    fun he => hne (Option.some.inj he)
  exact ⟨alget_alset_ne s.id_suspicious_status (some s.next_id) (some aid) false hne',
         alget_alset_ne s.id_checked_in_db (some s.next_id) (some aid) false hne'⟩

theorem sharedTail_flags (s : TrackerState) (qe : Vec) (bbox : BBox) (now : Q)
    (a : Option Nat) (b : Q) (oc : Option Nat) (rn : Bool) (aid : Nat)
    (hne : ¬aid = s.next_id) :
    alget (sharedTail s qe bbox now a b oc rn).1.id_suspicious_status (some aid) =
      alget s.id_suspicious_status (some aid) ∧
    alget (sharedTail s qe bbox now a b oc rn).1.id_checked_in_db (some aid) =
      alget s.id_checked_in_db (some aid) := by
  unfold sharedTail
  repeat' first
    | exact ⟨rfl, rfl⟩
    | exact createIdentity_flags s qe aid hne
    | split
    | dsimp only

theorem pendingStage_flags (s : TrackerState) (qe : Vec) (bbox : BBox)
    (sid : String) (now : Q) (b0 : Q) (aid : Nat) (hlt : aid < s.next_id) :
    alget (pendingStage s qe bbox sid now b0).1.id_suspicious_status (some aid) =
      alget s.id_suspicious_status (some aid) ∧
    alget (pendingStage s qe bbox sid now b0).1.id_checked_in_db (some aid) =
      alget s.id_checked_in_db (some aid) := by
  have hne : ¬aid = s.next_id := Nat.ne_of_lt hlt
  have hne1 : ¬aid = s.next_id + 1 := by omega
  have hne' : ¬(some aid : Option Nat) = some s.next_id :=
    fun he => hne (Option.some.inj he)
  unfold pendingStage
  try dsimp only
  split
  · exact sharedTail_flags _ qe bbox now _ _ none false aid (by exact hne)
  · split
    · split
      · exact ⟨rfl, rfl⟩
      · exact ⟨(sharedTail_flags _ qe bbox now _ _ none false aid
            (by exact hne1)).1.trans
            (alget_alset_ne s.id_suspicious_status (some s.next_id) (some aid)
              false hne'),
          (sharedTail_flags _ qe bbox now _ _ none false aid
            (by exact hne1)).2.trans
            (alget_alset_ne s.id_checked_in_db (some s.next_id) (some aid)
              false hne')⟩
    · split
      · exact sharedTail_flags _ qe bbox now _ _ _ true aid (by exact hne)
      · exact sharedTail_flags _ qe bbox now _ _ none false aid (by exact hne)

theorem emaStage_flags (s : TrackerState) (aid2 : Nat) (b : Q) (qe : Vec) :
    (emaStage s aid2 b qe).1.id_suspicious_status = s.id_suspicious_status ∧
    (emaStage s aid2 b qe).1.id_checked_in_db = s.id_checked_in_db := by
  unfold emaStage
  repeat' first
    | exact ⟨rfl, rfl⟩
    | split
    | dsimp only

theorem dbCheckStage_flags (s : TrackerState) (a : Option Nat) (aid : Nat)
    (hch : alget s.id_checked_in_db (some aid) = some true) :
    alget (dbCheckStage s a).1.id_suspicious_status (some aid) =
      alget s.id_suspicious_status (some aid) ∧
    alget (dbCheckStage s a).1.id_checked_in_db (some aid) = some true := by
  by_cases hg : (alget s.id_checked_in_db a).getD false = true
  · unfold dbCheckStage
    rw [if_pos hg]
    exact ⟨rfl, hch⟩
  · have hne : ¬(some aid : Option Nat) = a := by
      intro he
      rw [← he, hch] at hg
      exact hg rfl
    have hchk : alget (alset s.id_checked_in_db a true) (some aid) = some true :=
      (alget_alset_ne s.id_checked_in_db a (some aid) true hne).trans hch
    unfold dbCheckStage
    rw [if_neg hg]
    try dsimp only
    split
    · exact ⟨alget_alset_ne s.id_suspicious_status a (some aid) false hne,
        by exact hchk⟩
    · cases a with
      | none => exact ⟨rfl, by exact hchk⟩
      | some a2 =>
          try dsimp only
          split
          · exact ⟨rfl, by exact hchk⟩
          · try dsimp only
            split
            · exact ⟨alget_alset_ne s.id_suspicious_status (some a2) (some aid)
                true hne, by exact hchk⟩
            · exact ⟨alget_alset_ne s.id_suspicious_status (some a2) (some aid)
                false hne, by exact hchk⟩

theorem postUpdate_flags (s : TrackerState) (a : Option Nat) (bbox : BBox)
    (sid : String) (now : Q) :
    (postUpdate s a bbox sid now).1.id_suspicious_status = s.id_suspicious_status ∧
    (postUpdate s a bbox sid now).1.id_checked_in_db = s.id_checked_in_db :=
  ⟨rfl, rfl⟩

theorem processTail_flags (s : TrackerState) (a : Option Nat) (bbox : BBox)
    (sid : String) (now : Q) (aid : Nat)
    (hch : alget s.id_checked_in_db (some aid) = some true)
    (hs : sticky s.id_suspicious_status (some aid) true) :
    sticky (processTail s a bbox sid now).1.id_suspicious_status (some aid) true ∧
    sticky (processTail s a bbox sid now).1.id_checked_in_db (some aid) true := by
  unfold processTail
  try dsimp only
  have hdb := dbCheckStage_flags (postUpdate s a bbox sid now).1 a aid (by exact hch)
  split
  · next s2 e heq =>
      rw [heq] at hdb
      have hd1 : alget s2.id_suspicious_status (some aid) =
          alget s.id_suspicious_status (some aid) := by exact hdb.1
      have hd2 : alget s2.id_checked_in_db (some aid) = some true := by exact hdb.2
      constructor
      · unfold sticky
        rw [hd1]
        exact hs
      · exact Or.inl hd2
  · next s2 heq =>
      rw [heq] at hdb
      have hd1 : alget s2.id_suspicious_status (some aid) =
          alget s.id_suspicious_status (some aid) := by exact hdb.1
      have hd2 : alget s2.id_checked_in_db (some aid) = some true := by exact hdb.2
      have h2s : sticky s2.id_suspicious_status (some aid) true := by
        unfold sticky
        rw [hd1]
        exact hs
      have h2c : sticky s2.id_checked_in_db (some aid) true := Or.inl hd2
      have hm := maintenance_sticky s2 now aid
      split
      · next s3 e2 heq2 =>
          rw [heq2] at hm
          exact ⟨hm.1 h2s, hm.2 true h2c⟩
      · next s3 heq2 =>
          rw [heq2] at hm
          exact ⟨hm.1 h2s, hm.2 true h2c⟩

/-! ## C9: the pairwise postcondition of a consolidation pass -/

theorem mem_alkeys_of_alget {α β : Type} [DecidableEq α] {l : List (α × β)} {k : α}
    {v : β} (h : alget l k = some v) : k ∈ alkeys l := by
  unfold alget at h
  cases hf : l.find? (fun p => decide (p.1 = k)) with
  | none => rw [hf] at h; cases h
  | some p =>
      have hmem := List.mem_of_find?_eq_some hf
      have hpred := List.find?_some hf
      simp only [decide_eq_true_eq] at hpred
      have hx : p.1 ∈ alkeys l := by
        unfold alkeys
        exact List.mem_map.mpr ⟨p, hmem, rfl⟩
      exact hpred ▸ hx

theorem exists_alget_of_mem {α β : Type} [DecidableEq α] {l : List (α × β)} {k : α}
    (h : k ∈ alkeys l) : ∃ v, alget l k = some v := by
  induction l with
  | nil => cases h
  | cons p t ih =>
      by_cases hp : p.1 = k
      · exact ⟨p.2, alget_cons_eq p t k hp⟩
      · have h' : k ∈ alkeys t := by
          unfold alkeys at h ⊢
          rcases List.mem_map.mp h with ⟨q, hq, hq2⟩
          rcases List.mem_cons.mp hq with h1 | h1
          · exact absurd (show p.1 = k by rw [← h1]; exact hq2) hp
          · exact List.mem_map.mpr ⟨q, h1, hq2⟩
        rw [alget_cons_ne p t k hp]
        exact ih h'

theorem mem_eq_of_short (l : List Nat) (h : l.length < 2) (i j : Nat)
    (hi : i ∈ l) (hj : j ∈ l) : i = j := by
  cases l with
  | nil => cases hi
  | cons x t =>
      cases t with
      | nil => rw [List.mem_singleton.mp hi, List.mem_singleton.mp hj]
      | cons y r => simp only [List.length_cons] at h; omega

theorem fold_min_eq (a : Nat) (l : List Nat) :
    (∀ x ∈ l, a ≤ x) → List.foldl Nat.min a l = a := by
  induction l with
  | nil => intro _; rfl
  | cons x t ih =>
      intro h
      rw [List.foldl_cons]
      have hx : Nat.min a x = a := by
        have hax := h x (List.mem_cons_self x t)
        unfold Nat.min
        exact min_eq_left hax
      rw [hx]
      exact ih (fun y hy => h y (List.mem_cons_of_mem x hy))

theorem consInner_snd (st : TrackerState) (id1 : Nat) (e1 : Vec) (rest : List Nat) :
    ∀ cons, (consInner st id1 e1 rest cons).2 =
      cons ++ (consInner st id1 e1 rest cons).1 := by
  induction rest with
  | nil => intro cons; simp [consInner]
  | cons x t ih =>
      intro cons
      unfold consInner
      split
      · exact ih cons
      · split
        · try dsimp only
          rw [ih (cons ++ [x]), List.append_assoc]
          rfl
        · exact ih cons

theorem consInner_fst_sub (st : TrackerState) (id1 : Nat) (e1 : Vec)
    (rest : List Nat) :
    ∀ cons x, x ∈ (consInner st id1 e1 rest cons).1 → x ∈ rest := by
  induction rest with
  | nil => intro cons x hx; simp [consInner] at hx
  | cons y t ih =>
      intro cons x hx
      unfold consInner at hx
      split at hx
      · exact List.mem_cons_of_mem y (ih cons x hx)
      · split at hx
        · try dsimp only at hx
          rcases List.mem_cons.mp hx with h | h
          · exact List.mem_cons.mpr (Or.inl h)
          · exact List.mem_cons_of_mem y (ih (cons ++ [y]) x h)
        · exact List.mem_cons_of_mem y (ih cons x hx)

theorem consInner_cond_false (st : TrackerState) (id1 : Nat) (e1 : Vec)
    (rest : List Nat) :
    ∀ cons j, j ∈ rest → j ∉ (consInner st id1 e1 rest cons).2 →
      consMergeCond st id1 e1 j ((alget st.id2emb j).getD []) = false := by
  induction rest with
  | nil => intro cons j hj _; cases hj
  | cons x t ih =>
      intro cons j hj hns
      unfold consInner at hns
      split at hns
      · next hmem =>
          rcases List.mem_cons.mp hj with h | h
          · exfalso
            apply hns
            rw [consInner_snd st id1 e1 t cons]
            exact List.mem_append.mpr (Or.inl (by rw [h]; exact hmem))
          · exact ih cons j h hns
      · split at hns
        · try dsimp only at hns
          rcases List.mem_cons.mp hj with h | h
          · exfalso
            apply hns
            rw [consInner_snd st id1 e1 t (cons ++ [x])]
            exact List.mem_append.mpr (Or.inl (List.mem_append.mpr
              (Or.inr (List.mem_singleton.mpr h))))
          · exact ih (cons ++ [x]) j h hns
        · next hcond =>
            rcases List.mem_cons.mp hj with h | h
            · rw [h]
              exact Bool.eq_false_iff.mpr hcond
            · exact ih cons j h hns

theorem suspTransferOne_data (p : Nat) (st : TrackerState) (oid : Nat) :
    (suspTransferOne p st oid).id2last_bbox = st.id2last_bbox ∧
    (suspTransferOne p st oid).id2last_seen = st.id2last_seen := by
  unfold suspTransferOne
  repeat' first
    | exact ⟨rfl, rfl⟩
    | split
    | dsimp only

theorem fold_suspTransferOne_data (p : Nat) (l : List Nat) :
    ∀ st, (List.foldl (suspTransferOne p) st l).id2last_bbox = st.id2last_bbox ∧
      (List.foldl (suspTransferOne p) st l).id2last_seen = st.id2last_seen := by
  induction l with
  | nil => exact fun st => ⟨rfl, rfl⟩
  | cons x t ih =>
      intro st
      have h1 := suspTransferOne_data p st x
      have h2 := ih (suspTransferOne p st x)
      exact ⟨h2.1.trans h1.1, h2.2.trans h1.2⟩

theorem fold_remove_data (l : List Nat) :
    ∀ (st : TrackerState) (k : Nat), k ∉ l →
      alget (List.foldl removeIdEverywhere st l).id2emb k = alget st.id2emb k ∧
      alget (List.foldl removeIdEverywhere st l).id2last_bbox (some k) =
        alget st.id2last_bbox (some k) ∧
      alget (List.foldl removeIdEverywhere st l).id2last_seen (some k) =
        alget st.id2last_seen (some k) := by
  induction l with
  | nil => intro st k _; exact ⟨rfl, rfl, rfl⟩
  | cons x t ih =>
      intro st k hk
      have hkx : ¬k = x := fun he => hk (by rw [he]; exact List.mem_cons_self x t)
      have hkt : k ∉ t := fun ht => hk (List.mem_cons_of_mem x ht)
      have hr := ih (removeIdEverywhere st x) k hkt
      refine ⟨hr.1.trans ?_, hr.2.1.trans ?_, hr.2.2.trans ?_⟩
      · exact alget_alremove_ne st.id2emb x k hkx
      · exact alget_alremove_ne st.id2last_bbox (some x) (some k)
          (fun he => hkx (Option.some.inj he))
      · exact alget_alremove_ne st.id2last_seen (some x) (some k)
          (fun he => hkx (Option.some.inj he))

theorem consMergeCond_congr (s st : TrackerState) (id1 : Nat) (e1 : Vec)
    (id2 : Nat) (e2 : Vec)
    (hb1 : alget st.id2last_bbox (some id1) = alget s.id2last_bbox (some id1))
    (hb2 : alget st.id2last_bbox (some id2) = alget s.id2last_bbox (some id2))
    (ht1 : alget st.id2last_seen (some id1) = alget s.id2last_seen (some id1))
    (ht2 : alget st.id2last_seen (some id2) = alget s.id2last_seen (some id2)) :
    consMergeCond st id1 e1 id2 e2 = consMergeCond s id1 e1 id2 e2 := by
  unfold consMergeCond
  try dsimp only
  rw [hb1, hb2, ht1, ht2]

theorem applyMerge_untouched (st : TrackerState) (id1 : Nat) (others : List Nat)
    (hgt : ∀ x ∈ others, id1 < x) (k : Nat) (hk1 : ¬k = id1) (hko : k ∉ others) :
    alget (applyMerge st id1 others).id2emb k = alget st.id2emb k ∧
    alget (applyMerge st id1 others).id2last_bbox (some k) =
      alget st.id2last_bbox (some k) ∧
    alget (applyMerge st id1 others).id2last_seen (some k) =
      alget st.id2last_seen (some k) := by
  have hpr : List.foldl Nat.min id1 (id1 :: others) = id1 := by
    rw [List.foldl_cons]
    rw [show Nat.min id1 id1 = id1 from by unfold Nat.min; exact min_self id1]
    exact fold_min_eq id1 others (fun x hx => Nat.le_of_lt (hgt x hx))
  have hoth : List.filter (fun i => !(decide (i = id1))) (id1 :: others) = others := by
    rw [show List.filter (fun i => !(decide (i = id1))) (id1 :: others) =
        List.filter (fun i => !(decide (i = id1))) others from by simp,
      List.filter_eq_self.mpr (fun a ha => by
        have h2 := hgt a ha
        simp only [Bool.not_eq_true', decide_eq_false_iff_not]
        omega)]
  unfold applyMerge
  split
  · exact ⟨rfl, rfl, rfl⟩
  · try dsimp only
    rw [hpr, hoth]
    refine ⟨?_, ?_, ?_⟩
    · rw [(fold_remove_data others _ k hko).1,
        (fold_suspTransferOne_index id1 others _).2]
      exact alget_alset_ne st.id2emb id1 k _ hk1
    · rw [(fold_remove_data others _ k hko).2.1,
        (fold_suspTransferOne_data id1 others _).1]
    · rw [(fold_remove_data others _ k hko).2.2,
        (fold_suspTransferOne_data id1 others _).2]

theorem applyMerge_keys_sub (st : TrackerState) (id1 : Nat) (others : List Nat)
    (hgt : ∀ x ∈ others, id1 < x) (hid : id1 ∈ alkeys st.id2emb) (k : Nat)
    (hk : k ∈ alkeys (applyMerge st id1 others).id2emb) : k ∈ alkeys st.id2emb := by
  have hpr : List.foldl Nat.min id1 (id1 :: others) = id1 := by
    rw [List.foldl_cons]
    rw [show Nat.min id1 id1 = id1 from by unfold Nat.min; exact min_self id1]
    exact fold_min_eq id1 others (fun x hx => Nat.le_of_lt (hgt x hx))
  have hoth : List.filter (fun i => !(decide (i = id1))) (id1 :: others) = others := by
    rw [show List.filter (fun i => !(decide (i = id1))) (id1 :: others) =
        List.filter (fun i => !(decide (i = id1))) others from by simp,
      List.filter_eq_self.mpr (fun a ha => by
        have h2 := hgt a ha
        simp only [Bool.not_eq_true', decide_eq_false_iff_not]
        omega)]
  unfold applyMerge at hk
  split at hk
  · exact hk
  · try dsimp only at hk
    rw [hpr, hoth] at hk
    rw [(fold_remove_mem others _ k).2] at hk
    rw [(fold_suspTransferOne_index id1 others _).2] at hk
    try dsimp only at hk
    rw [mem_alkeys_alset] at hk
    rcases hk with ⟨h1 | h1, _⟩
    · rw [h1]; exact hid
    · exact h1

theorem applyMerge_removed (st : TrackerState) (id1 : Nat) (others : List Nat)
    (hgt : ∀ x ∈ others, id1 < x) (c : Nat) (hc : c ∈ others) :
    c ∉ alkeys (applyMerge st id1 others).id2emb := by
  intro hk
  have hpr : List.foldl Nat.min id1 (id1 :: others) = id1 := by
    rw [List.foldl_cons]
    rw [show Nat.min id1 id1 = id1 from by unfold Nat.min; exact min_self id1]
    exact fold_min_eq id1 others (fun x hx => Nat.le_of_lt (hgt x hx))
  have hoth : List.filter (fun i => !(decide (i = id1))) (id1 :: others) = others := by
    rw [show List.filter (fun i => !(decide (i = id1))) (id1 :: others) =
        List.filter (fun i => !(decide (i = id1))) others from by simp,
      List.filter_eq_self.mpr (fun a ha => by
        have h2 := hgt a ha
        simp only [Bool.not_eq_true', decide_eq_false_iff_not]
        omega)]
  unfold applyMerge at hk
  split at hk
  · next hemp =>
      cases others with
      | nil => cases hc
      | cons a t => simp at hemp
  · try dsimp only at hk
    rw [hpr, hoth] at hk
    rw [(fold_remove_mem others _ c).2] at hk
    exact hk.2 hc

theorem consGo_main (s : TrackerState) (todo : List Nat) :
    ∀ (st : TrackerState) (cons : List Nat),
      List.Sorted (· < ·) todo →
      (∀ k, k ∈ todo → k ∈ alkeys s.id2emb) →
      (∀ k, k ∈ todo → k ∉ cons →
        alget st.id2emb k = alget s.id2emb k ∧
        alget st.id2last_bbox (some k) = alget s.id2last_bbox (some k) ∧
        alget st.id2last_seen (some k) = alget s.id2last_seen (some k)) →
      (∀ c, c ∈ cons → c ∉ alkeys st.id2emb) →
      (∀ k, k ∈ alkeys (consGo st cons todo).id2emb → k ∈ alkeys st.id2emb) ∧
      (∀ i j, i < j → i ∈ todo → j ∈ todo →
        i ∈ alkeys (consGo st cons todo).id2emb →
        j ∈ alkeys (consGo st cons todo).id2emb →
        mergeCondPre s i j = false) := by
  induction todo with
  | nil =>
      intro st cons _ _ _ _
      exact ⟨fun k hk => hk, fun i j _ hi _ _ _ => absurd hi (List.not_mem_nil i)⟩
  | cons id1 rest ih =>
      intro st cons hsort hkeys hdata hcons
      have hsort' : List.Sorted (· < ·) rest := (List.sorted_cons.mp hsort).2
      have hlt1 : ∀ x ∈ rest, id1 < x := (List.sorted_cons.mp hsort).1
      unfold consGo
      split
      · next hmem =>
          have hmain := ih st cons hsort'
            (fun k hk => hkeys k (List.mem_cons_of_mem id1 hk))
            (fun k hk hkc => hdata k (List.mem_cons_of_mem id1 hk) hkc)
            hcons
          refine ⟨hmain.1, ?_⟩
          intro i j hij hi hj hsi hsj
          rcases List.mem_cons.mp hi with h | h
          · exact absurd (hmain.1 i hsi) (by rw [h]; exact hcons id1 hmem)
          · rcases List.mem_cons.mp hj with h2 | h2
            · exact absurd (hmain.1 j hsj) (by rw [h2]; exact hcons id1 hmem)
            · exact hmain.2 i j hij h h2 hsi hsj
      · next hmem =>
          try dsimp only
          have hsnd := consInner_snd st id1 ((alget st.id2emb id1).getD []) rest cons
          have hgsub : ∀ x ∈ (consInner st id1 ((alget st.id2emb id1).getD [])
              rest cons).1, x ∈ rest :=
            fun x hx => consInner_fst_sub st id1 _ rest cons x hx
          have hggt : ∀ x ∈ (consInner st id1 ((alget st.id2emb id1).getD [])
              rest cons).1, id1 < x := fun x hx => hlt1 x (hgsub x hx)
          have hmem1 : id1 ∈ id1 :: rest := List.mem_cons_self id1 rest
          have hd1 := hdata id1 hmem1 hmem
          have hid1k : id1 ∈ alkeys st.id2emb := by
            obtain ⟨v, hv⟩ := exists_alget_of_mem (hkeys id1 hmem1)
            exact mem_alkeys_of_alget (hd1.1.trans hv)
          have hdata' : ∀ k, k ∈ rest →
              k ∉ (consInner st id1 ((alget st.id2emb id1).getD []) rest cons).2 →
              alget (applyMerge st id1 (consInner st id1
                ((alget st.id2emb id1).getD []) rest cons).1).id2emb k =
                alget s.id2emb k ∧
              alget (applyMerge st id1 (consInner st id1
                ((alget st.id2emb id1).getD []) rest cons).1).id2last_bbox (some k) =
                alget s.id2last_bbox (some k) ∧
              alget (applyMerge st id1 (consInner st id1
                ((alget st.id2emb id1).getD []) rest cons).1).id2last_seen (some k) =
                alget s.id2last_seen (some k) := by
            intro k hk hkc
            rw [hsnd] at hkc
            have hkcons : k ∉ cons := fun hc => hkc (List.mem_append.mpr (Or.inl hc))
            have hkg : k ∉ (consInner st id1 ((alget st.id2emb id1).getD [])
                rest cons).1 := fun hg => hkc (List.mem_append.mpr (Or.inr hg))
            have h0 := hdata k (List.mem_cons_of_mem id1 hk) hkcons
            have hne1 : ¬k = id1 := by
              have := hlt1 k hk
              omega
            have hu := applyMerge_untouched st id1 _ hggt k hne1 hkg
            exact ⟨hu.1.trans h0.1, hu.2.1.trans h0.2.1, hu.2.2.trans h0.2.2⟩
          have hcons' : ∀ c, c ∈ (consInner st id1 ((alget st.id2emb id1).getD [])
              rest cons).2 →
              c ∉ alkeys (applyMerge st id1 (consInner st id1
                ((alget st.id2emb id1).getD []) rest cons).1).id2emb := by
            intro c hc hcm
            rw [hsnd] at hc
            rcases List.mem_append.mp hc with h1 | h1
            · exact hcons c h1 (applyMerge_keys_sub st id1 _ hggt hid1k c hcm)
            · exact applyMerge_removed st id1 _ hggt c h1 hcm
          have hmain := ih (applyMerge st id1 (consInner st id1
              ((alget st.id2emb id1).getD []) rest cons).1)
            (consInner st id1 ((alget st.id2emb id1).getD []) rest cons).2 hsort'
            (fun k hk => hkeys k (List.mem_cons_of_mem id1 hk)) hdata' hcons'
          refine ⟨?_, ?_⟩
          · intro k hk
            exact applyMerge_keys_sub st id1 _ hggt hid1k k (hmain.1 k hk)
          · intro i j hij hi hj hsi hsj
            rcases List.mem_cons.mp hi with hie | hie
            · rcases List.mem_cons.mp hj with hje | hje
              · exact absurd hij (by rw [hie, hje]; exact Nat.lt_irrefl id1)
              · have hjs := hmain.1 j hsj
                have hjnc : j ∉ (consInner st id1 ((alget st.id2emb id1).getD [])
                    rest cons).2 := fun hc => hcons' j hc hjs
                have hcf := consInner_cond_false st id1
                  ((alget st.id2emb id1).getD []) rest cons j hje hjnc
                have hdj := hdata j (List.mem_cons_of_mem id1 hje) (fun hc =>
                  hjnc (by rw [hsnd]; exact List.mem_append.mpr (Or.inl hc)))
                rw [hie]
                unfold mergeCondPre
                rw [← hd1.1, ← hdj.1,
                  ← consMergeCond_congr s st id1 ((alget st.id2emb id1).getD [])
                    j ((alget st.id2emb j).getD []) hd1.2.1 hdj.2.1 hd1.2.2 hdj.2.2]
                exact hcf
            · rcases List.mem_cons.mp hj with hje | hje
              · exfalso
                have := hlt1 i hie
                rw [hje] at hij
                omega
              · exact hmain.2 i j hij hie hje hsi hsj

end LiveDetect

namespace LiveDetect

/-! ## Claim theorems -/

/-- C1, counterexample: the claim expects the first observation on a cold start to
return `(None, false, _)` with no identity created; in fact the very first call
takes the "first face ever" branch (server.py lines 382-393), creates identity 0
and returns it. -/
theorem c1_counterexample :
    c1_run1.2 = .ok (some 0, false, c1_b1) ∧ c1_run1.1.next_id = 1 ∧
    alhas c1_run1.1.id2emb 0 = true := by decide

/-- C1, amended: from an empty registry the first observation immediately creates
identity 0 (first-face-ever path) and returns `(0, false, bbox)`; the second and
third observations reuse identity 0 through Step C with smoothed bboxes; the
pending track stays at count 1 and promotion at `min_appearances_for_id` never
happens. -/
theorem c1_amended :
    c1_run1.2 = .ok (some 0, false, c1_b1) ∧
    c1_run2.2 = .ok (some 0, false, ⟨100, 100, 200, 200⟩) ∧
    c1_run3.2 = .ok (some 0, false, ⟨101, 100, 201, 200⟩) ∧
    c1_run3.1.next_id = 1 ∧
    (alget c1_run3.1.pending_tracks ("s1", 2, 2)).map PendingTrack.count = some 1 := by
  decide

/-- C5, counterexample: after a 4.8 s absence (`> reuse_time_window_s`) of
identity 0, the first resumed observation — with cosine exactly 1 to the
canonical embedding — is claimed to return `(None, false, _)` until probation
start + 3 s; in fact it returns identity 0 at once via the ≥ 0.8 broadcast
shortcut of the pending stage (server.py lines 284-293). -/
theorem c5_counterexample :
    Q.blt reuse_time_window_s
      (Q.sub (q 5 1) ((alget c1_run3.1.id2last_seen (some 0)).getD (q 0 1))) = true ∧
    cosSim unitE ((alget c1_run3.1.id2emb 0).getD []) = q 1 1 ∧
    c5_run.2 = .ok (some 0, false, ⟨103, 100, 203, 200⟩) := by decide

/-- C5, amended: when the resumed observations have cosine > 0.8 with the
canonical embedding, the pending-stage broadcast shortcut re-assigns the old
identity immediately on the first resumed call (no waiting period), creates no
new identity, and Step H clears the probation record created by Step D in the
same call; the `relink_duration_s` gate only delays candidates whose similarity
stays in the (0.65, 0.8] band. -/
theorem c5_amended :
    c5_run.2 = .ok (some 0, false, ⟨103, 100, 203, 200⟩) ∧
    c5_run.1.next_id = 1 ∧
    c5_run.1.relink_tracks = [] := by decide

/-- C2, code bug: at Step G with broadcast maximum 0.8 ≥ 0.65 and probation not
satisfied, the code records the probation but has no `return` (server.py
lines 346-362): it falls through to the post-assignment updates with
`assigned_id = None`, writing ghost entries keyed by `None` into
`id2last_bbox` / `id2last_seen` / `id2stream` / `id_checked_in_db` /
`id_suspicious_status`, and — when the watchlist is nonempty — raising `KeyError`
at `id2emb[None]` (line 429).  With an empty watchlist the call does return
`(None, false, bbox)` and creates no identity, but the registry maps are not left
unchanged as claimed. -/
theorem c2_bug_eval :
    c2_run.2 = .ok (none, false, ⟨100, 100, 200, 200⟩) ∧
    c2_run.1.next_id = c2_state.next_id ∧
    alget c2_run.1.relink_tracks 0 = some ⟨q 201 2, q 201 2, q 4 5⟩ ∧
    alget c2_run.1.id2last_seen none = some (q 201 2) ∧
    alget c2_run.1.id2last_bbox none = some ⟨100, 100, 200, 200⟩ ∧
    alget c2_run.1.id2stream none = some "s1" ∧
    alget c2_run.1.id_checked_in_db none = some true ∧
    c2_run_wl.2 = .error .keyErr := by decide

/-- C3, counterexample: an observation handled in the pending stage whose cosine
to active identity 0 is 24/25 ≥ 0.80 promotes the pending track (count reaches 3)
instead of assigning identity 0: the `matched_existing` broadcast of server.py
line 284 is guarded by `not promote`, so the promoting call creates duplicate
identity 1 whose embedding is within the immediate-merge distance of identity 0. -/
theorem c3_counterexample :
    c3_run.2 = .ok (some 1, false, ⟨100, 100, 200, 200⟩) ∧
    c3_run.1.next_id = 2 ∧
    alget c3_run.1.id2emb 0 = some unitE ∧
    alget c3_run.1.id2emb 1 = some simE96 ∧
    Q.ble (q 4 5) (cosSim simE96 unitE) = true := by decide

/-- C6, counterexample: a Step-F (occlusion-reuse) assignment with nominal
similarity 0.6 performs no embedding update at all — the EMA of server.py
lines 394-405 is the `else` of `if assigned_id is None` and Step-F assignments
happen inside the `None` branch.  The canonical embedding of identity 0 stays
`unitE` and the index entry is untouched, instead of becoming
`normalize(0.82·old + 0.18·obs)` as the claim requires. -/
theorem c6_counterexample :
    c6_run.2 = .ok (some 0, false, ⟨75, 0, 475, 400⟩) ∧
    alget c6_run.1.id2emb 0 = some unitE ∧
    c6_run.1.index = [(0, unitE)] ∧
    unitE ≠ normalizeV (addV (smulV (Q.sub (q 1 1) c6_w) unitE) (smulV c6_w c6_query)) := by
  decide

/-- C7, counterexample: the suspicious flag is not monotone.  For an identity
that is suspicious while `checked_in_db` is still false (the state a consolidation
merge produces when a suspicious identity is absorbed by a primary whose own
watchlist check has not run yet), the next assignment runs the first-time check
(server.py lines 425-446) and — with an empty watchlist — resets the flag to
false while the identity stays active. -/
theorem c7_counterexample :
    alget c7_state.id_suspicious_status (some 0) = some true ∧
    c7_run.2 = .ok (some 0, false, ⟨100, 100, 200, 200⟩) ∧
    alget c7_run.1.id_suspicious_status (some 0) = some false ∧
    alhas c7_run.1.id2emb 0 = true := by decide

/-- C8, counterexample: a consolidation pass runs on a call that creates no
identity.  With `faces_since_rebuild = 0` (e.g. right after start-up or a
rebuild), `0 % 20 == 0` holds (server.py line 449), so a pure Step-C reuse call
still consolidates — observably merging mergeable pair (0, 1) — while `next_id`
is unchanged. -/
theorem c8_counterexample :
    c8_run.1.next_id = c8_state.next_id ∧
    c8_run.2 = .ok (some 0, false, ⟨100, 100, 200, 200⟩) ∧
    alkeys c8_state.id2emb = [0, 1] ∧
    alkeys c8_run.1.id2emb = [0] := by decide

/-- C8, amended: the trigger is `faces_since_rebuild % 20 == 0` evaluated after
any increment, with 0 included — not "creation brings the counter to a positive
multiple".  (a) A creating call that brings the counter from 19 to 20 does run
consolidation (the planted pair merges and the new identity survives);
(b) a non-creating call with the counter at 1 runs none (the same mergeable pair
survives intact). -/
theorem c8_amended :
    (c8_runA.2 = .ok (some 2, false, ⟨700, 700, 800, 800⟩) ∧
     c8_runA.1.next_id = 3 ∧
     c8_runA.1.faces_since_rebuild = 20 ∧
     alkeys c8_runA.1.id2emb = [0, 2]) ∧
    (c8_runB.1.next_id = 2 ∧
     alkeys c8_runB.1.id2emb = [0, 1]) := by decide

/-- C9, counterexample: immediately after a consolidation pass, surviving pair
(0, 2) violates the claimed postcondition: merging identity 1 into 0 replaced 0's
embedding by the blend after the (0, 2) comparison was already made, so
`cos(0, 2) = 357/470 > 0.65` while their last-seen times coincide (the IoU/time
co-activity condition is not failed). -/
theorem c9_counterexample :
    alkeys c9_post.id2emb = [0, 2] ∧
    Q.blt consolidation_threshold
      (cosSim ((alget c9_post.id2emb 0).getD []) ((alget c9_post.id2emb 2).getD [])) = true ∧
    Q.ble (Q.abs (Q.sub ((alget c9_post.id2last_seen (some 0)).getD (q 0 1))
        ((alget c9_post.id2last_seen (some 2)).getD (q 0 1))))
      immediate_merge_time_window = true := by decide

/-- C3, amended: for an observation handled in the pending stage whose updated
pending count is still below `min_appearances_for_id`, a broadcast maximum above
0.8 (hence above `similarity_reuse_threshold`) makes the stage assign that
existing identity — `matched_existing` at server.py lines 284-293 — and the call
creates no identity and changes no embedding: `id2emb`, the index and `next_id`
are untouched.  (On the promoting call this guard is skipped, which is what the
counterexample exploits.) -/
theorem c3_amended (s : TrackerState) (qe : Vec) (bbox : BBox) (sid : String)
    (now b0 : Q) (mid : Nat) (ms : Q)
    (hcount : (match alget s.pending_tracks
        (sid, Int.fdiv (bboxCenter bbox).1 64, Int.fdiv (bboxCenter bbox).2 64) with
      | none => 1
      | some p => p.count + 1) < min_appearances_for_id)
    (hbb : broadcastBest s qe = some (mid, ms))
    (h08 : Q.blt (q 4 5) ms = true)
    (h065 : Q.blt similarity_reuse_threshold ms = true) :
    (pendingStage s qe bbox sid now b0).2 = .cont (some mid) (Q.max b0 (q 4 5)) ∧
    (pendingStage s qe bbox sid now b0).1.id2emb = s.id2emb ∧
    (pendingStage s qe bbox sid now b0).1.index = s.index ∧
    (pendingStage s qe bbox sid now b0).1.next_id = s.next_id := by
  have hne := id2emb_isEmpty_false_of_broadcast s qe mid ms hbb
  unfold pendingStage
  try dsimp only
  rcases hget : alget s.pending_tracks
      (sid, Int.fdiv (bboxCenter bbox).1 64, Int.fdiv (bboxCenter bbox).2 64) with _ | p
  all_goals rw [hget] at hcount
  all_goals simp only [hget]
  all_goals try dsimp only
  · rw [decide_eq_false (Nat.not_le.mpr hcount)]
    simp only [Bool.not_false, Bool.true_and, hne, broadcastBest_set_pending, hbb, h08,
      if_true]
    try dsimp only
    refine ⟨(sharedTail_broadcast_reuse _ qe bbox now (Q.max b0 (q 4 5)) mid ms (by exact hbb) h065).1,
      (sharedTail_broadcast_reuse _ qe bbox now (Q.max b0 (q 4 5)) mid ms (by exact hbb) h065).2.1,
      (sharedTail_broadcast_reuse _ qe bbox now (Q.max b0 (q 4 5)) mid ms (by exact hbb) h065).2.2.1,
      (sharedTail_broadcast_reuse _ qe bbox now (Q.max b0 (q 4 5)) mid ms (by exact hbb) h065).2.2.2⟩
  · rw [decide_eq_false (Nat.not_le.mpr hcount)]
    simp only [Bool.not_false, Bool.true_and, hne, broadcastBest_set_pending, hbb, h08,
      if_true]
    try dsimp only
    refine ⟨(sharedTail_broadcast_reuse _ qe bbox now (Q.max b0 (q 4 5)) mid ms (by exact hbb) h065).1,
      (sharedTail_broadcast_reuse _ qe bbox now (Q.max b0 (q 4 5)) mid ms (by exact hbb) h065).2.1,
      (sharedTail_broadcast_reuse _ qe bbox now (Q.max b0 (q 4 5)) mid ms (by exact hbb) h065).2.2.1,
      (sharedTail_broadcast_reuse _ qe bbox now (Q.max b0 (q 4 5)) mid ms (by exact hbb) h065).2.2.2⟩

/-- Witness for C3's amended theorem: the C3 state without its pending track
(count becomes 1 < 3), where the observation at cosine 24/25 is re-assigned
identity 0 with nothing created. -/
theorem c3_amended_witness :
    (pendingStage { c3_state with pending_tracks := [] } simE96 ⟨100, 100, 200, 200⟩
        "s1" (q 100 1) (q 0 1)).2 = .cont (some 0) (Q.max (q 0 1) (q 4 5)) ∧
    (pendingStage { c3_state with pending_tracks := [] } simE96 ⟨100, 100, 200, 200⟩
        "s1" (q 100 1) (q 0 1)).1.id2emb = c3_state.id2emb ∧
    (pendingStage { c3_state with pending_tracks := [] } simE96 ⟨100, 100, 200, 200⟩
        "s1" (q 100 1) (q 0 1)).1.index = c3_state.index ∧
    (pendingStage { c3_state with pending_tracks := [] } simE96 ⟨100, 100, 200, 200⟩
        "s1" (q 100 1) (q 0 1)).1.next_id = c3_state.next_id :=
  c3_amended { c3_state with pending_tracks := [] } simE96 ⟨100, 100, 200, 200⟩
    "s1" (q 100 1) (q 0 1) 0 (q 24 25) (by decide) (by decide) (by decide) (by decide)

/-- C6, amended: the tracking EMA (`w = min(0.5, sim·0.3)`, blend, renormalize,
index remove+add) is applied exactly when the assignment came from Step C or
Step D (`assigned_id` non-`None` before the pending stage, server.py
lines 394-405); when Steps C/D assigned nothing, whatever Step E/F/G assigns,
the identity's canonical embedding is left untouched.  The maintenance
hypotheses keep the periodic consolidation/rebuild out of the call so that the
embedding statement is observable at the call boundary. -/
theorem c6_amended (s : TrackerState) (emb : Vec) (bbox : BBox) (sid : String)
    (now : Q) (aid : Nat) (old : Vec)
    (hnz : ¬norm2V emb = q 0 1)
    (hw : ¬bbox.x2 - bbox.x1 < min_face_size)
    (hh : ¬bbox.y2 - bbox.y1 < min_face_size)
    (hold : alget s.id2emb aid = some old)
    (hlt : aid < s.next_id)
    (hm : ∀ d : Nat, d ≤ 2 →
      ¬(s.faces_since_rebuild + d) % consolidation_check_interval = 0)
    (hr : s.faces_since_rebuild + 2 < rebuild_interval) :
    ((stepD s (normalizeV emb) bbox now (stepC s bbox sid now).1
        (stepC s bbox sid now).2).assigned = some aid →
      alget (process_face s emb bbox sid now).1.id2emb aid =
        some (emaVec (stepD s (normalizeV emb) bbox now (stepC s bbox sid now).1
          (stepC s bbox sid now).2).best_sim old (normalizeV emb)) ∧
      alget (process_face s emb bbox sid now).1.index aid =
        some (emaVec (stepD s (normalizeV emb) bbox now (stepC s bbox sid now).1
          (stepC s bbox sid now).2).best_sim old (normalizeV emb))) ∧
    ((stepD s (normalizeV emb) bbox now (stepC s bbox sid now).1
        (stepC s bbox sid now).2).assigned = none →
      alget (process_face s emb bbox sid now).1.id2emb aid = some old) := by
  have h0 : ¬s.faces_since_rebuild % consolidation_check_interval = 0 := by
    have := hm 0 (by omega)
    simpa using this
  have hb0 : s.faces_since_rebuild < rebuild_interval := by
    unfold rebuild_interval at hr ⊢
    omega
  have hsz : ¬((decide (bbox.x2 - bbox.x1 < min_face_size) ||
      decide (bbox.y2 - bbox.y1 < min_face_size)) = true) := by
    simp [hw, hh]
  constructor
  · intro hA
    unfold process_face
    rw [if_neg hnz, if_neg hsz]
    try dsimp only
    rw [hA]
    try dsimp only
    rw [emaStage_eq _ aid _ (normalizeV emb) old (by exact hold)]
    try dsimp only
    constructor
    · rw [(processTail_preserves _ (some aid) bbox sid now ?hc0 ?hc1).1]
      · exact alget_alset_self s.id2emb aid _
      case hc0 => exact h0
      case hc1 => exact hb0
    · rw [(processTail_preserves _ (some aid) bbox sid now ?hd0 ?hd1).2]
      · exact alget_idx_refresh s.index aid _
      case hd0 => exact h0
      case hd1 => exact hb0
  · intro hB
    unfold process_face
    rw [if_neg hnz, if_neg hsz]
    try dsimp only
    rw [hB]
    try dsimp only
    have hlk := pendingStage_id2emb_lookup
      { s with relink_tracks := (stepD s (normalizeV emb) bbox now
          (stepC s bbox sid now).1 (stepC s bbox sid now).2).relink }
      (normalizeV emb) bbox sid now
      (stepD s (normalizeV emb) bbox now (stepC s bbox sid now).1
        (stepC s bbox sid now).2).best_sim
      aid (by exact hlt)
    have hfc := pendingStage_faces
      { s with relink_tracks := (stepD s (normalizeV emb) bbox now
          (stepC s bbox sid now).1 (stepC s bbox sid now).2).relink }
      (normalizeV emb) bbox sid now
      (stepD s (normalizeV emb) bbox now (stepC s bbox sid now).1
        (stepC s bbox sid now).2).best_sim
    split
    · next s2 r heq =>
        rw [heq] at hlk
        exact hlk.trans (by exact hold)
    · next s2 a2 b2 heq =>
        rw [heq] at hlk hfc
        have h0' : ¬s2.faces_since_rebuild % consolidation_check_interval = 0 := by
          rcases hfc with hf | hf | hf <;> rw [hf]
          · exact h0
          · exact (by simpa using hm 1 (by omega))
          · exact (by simpa using hm 2 (by omega))
        have hb' : s2.faces_since_rebuild < rebuild_interval := by
          rcases hfc with hf | hf | hf <;> rw [hf]
          · exact hb0
          · show s.faces_since_rebuild + 1 < rebuild_interval
            unfold rebuild_interval at hr ⊢
            omega
          · show s.faces_since_rebuild + 2 < rebuild_interval
            exact hr
        rw [(processTail_preserves s2 a2 bbox sid now h0' hb').1, hlk]
        exact hold

/-- Witness for C6's amended theorem: the Step-F occlusion scenario, where
Steps C/D assign nothing and the canonical embedding of identity 0 stays
`unitE`. -/
theorem c6_amended_witness :
    alget (process_face c6_state c6_query ⟨250, 0, 650, 400⟩ "s1" (q 100 1)).1.id2emb 0 =
      some unitE :=
  (c6_amended c6_state c6_query ⟨250, 0, 650, 400⟩ "s1" (q 100 1) 0 unitE
    (by decide) (by decide) (by decide) (by decide) (by decide) (by decide)
    (by decide)).2 (by decide)

/-- C7, amended: the suspicious flag is monotone across consolidation and
cleanup unconditionally ("true" can only persist or disappear with the
identity), and across a whole `process_face` call for every identity whose own
watchlist check has already run (`checked_in_db = true`); the checked flag
itself is likewise monotone, so the watchlist classification runs at most once
per identity.  (The unguarded case — suspicious through a merge while still
unchecked — is the refuted original claim, see the counterexample.) -/
theorem c7_amended (s : TrackerState) (aid : Nat) :
    (sticky s.id_suspicious_status (some aid) true →
      sticky (consolidate_duplicate_ids s).id_suspicious_status (some aid) true) ∧
    (∀ now : Q, sticky s.id_suspicious_status (some aid) true →
      sticky (cleanup_old_faces s now).1.id_suspicious_status (some aid) true) ∧
    (∀ (emb : Vec) (bbox : BBox) (sid : String) (now : Q),
      aid < s.next_id →
      alget s.id_checked_in_db (some aid) = some true →
      sticky s.id_suspicious_status (some aid) true →
      sticky (process_face s emb bbox sid now).1.id_suspicious_status
        (some aid) true ∧
      sticky (process_face s emb bbox sid now).1.id_checked_in_db
        (some aid) true) := by
  refine ⟨(consolidate_sticky s aid).1, fun now => (cleanup_sticky s now aid).1, ?_⟩
  intro emb bbox sid now hlt hch hs
  unfold process_face
  split
  · exact ⟨hs, Or.inl hch⟩
  · try dsimp only
    split
    · exact ⟨hs, Or.inl hch⟩
    · try dsimp only
      set d := stepD s (normalizeV emb) bbox now (stepC s bbox sid now).1
        (stepC s bbox sid now).2
      split
      · next aid2 heq =>
          split
          · next s2 e heq2 =>
              try dsimp only
              have hf := emaStage_flags { s with relink_tracks := d.relink } aid2
                d.best_sim (normalizeV emb)
              rw [heq2] at hf
              have h1 : s2.id_suspicious_status = s.id_suspicious_status := by
                exact hf.1
              have h2 : s2.id_checked_in_db = s.id_checked_in_db := by exact hf.2
              rw [h1, h2]
              exact ⟨hs, Or.inl hch⟩
          · next s2 heq2 =>
              try dsimp only
              have hf := emaStage_flags { s with relink_tracks := d.relink } aid2
                d.best_sim (normalizeV emb)
              rw [heq2] at hf
              have h1 : s2.id_suspicious_status = s.id_suspicious_status := by
                exact hf.1
              have h2 : s2.id_checked_in_db = s.id_checked_in_db := by exact hf.2
              refine processTail_flags s2 (some aid2) bbox sid now aid ?_ ?_
              · rw [h2]
                exact hch
              · rw [h1]
                exact hs
      · next heq =>
          split
          · next s2 r heq2 =>
              try dsimp only
              have hp := pendingStage_flags { s with relink_tracks := d.relink }
                (normalizeV emb) bbox sid now d.best_sim aid (by exact hlt)
              rw [heq2] at hp
              have h1 : alget s2.id_suspicious_status (some aid) =
                  alget s.id_suspicious_status (some aid) := by exact hp.1
              have h2 : alget s2.id_checked_in_db (some aid) = some true :=
                (by exact hp.2 : alget s2.id_checked_in_db (some aid) =
                  alget s.id_checked_in_db (some aid)).trans hch
              constructor
              · unfold sticky
                rw [h1]
                exact hs
              · exact Or.inl h2
          · next s2 a2 b2 heq2 =>
              try dsimp only
              have hp := pendingStage_flags { s with relink_tracks := d.relink }
                (normalizeV emb) bbox sid now d.best_sim aid (by exact hlt)
              rw [heq2] at hp
              refine processTail_flags s2 a2 bbox sid now aid ?_ ?_
              · exact (by exact hp.2 : alget s2.id_checked_in_db (some aid) =
                  alget s.id_checked_in_db (some aid)).trans hch
              · unfold sticky
                rw [(by exact hp.1 : alget s2.id_suspicious_status (some aid) =
                  alget s.id_suspicious_status (some aid))]
                exact hs

/-- Witness for C7's amended theorem: identity 0 of the merge scenario, with its
watchlist check already recorded, keeps its suspicious flag sticky through a
full `process_face` call. -/
theorem c7_amended_witness :
    sticky (process_face { c7_state with id_checked_in_db := [(some 0, true)] }
        unitE ⟨102, 100, 202, 200⟩ "s1" (q 201 2)).1.id_suspicious_status
      (some 0) true :=
  ((c7_amended { c7_state with id_checked_in_db := [(some 0, true)] } 0).2.2
    unitE ⟨102, 100, 202, 200⟩ "s1" (q 201 2) (by decide) (by decide)
    (Or.inl (by decide))).1

/-- C9, amended: after a consolidation pass over a registry whose id list is
strictly ascending (as it is for ids handed out by `next_id`), every pair of
remaining identities fails the merge condition evaluated on the *pre-pass* data
— embeddings, last bboxes and last-seen times as of the start of the pass:
pre-pass cosine ≤ 0.65, and the pre-pass immediate-merge (similarity/time) and
IoU conditions fail too.  The postcondition cannot be strengthened to the
post-pass embeddings, because a merge primary is re-blended only after its
comparisons (see the counterexample). -/
theorem c9_amended (s : TrackerState)
    (hsort : List.Sorted (· < ·) (alkeys s.id2emb)) :
    ∀ i j : Nat, i < j →
      i ∈ alkeys (consolidate_duplicate_ids s).id2emb →
      j ∈ alkeys (consolidate_duplicate_ids s).id2emb →
      mergeCondPre s i j = false := by
  unfold consolidate_duplicate_ids
  split
  · next hlen =>
      intro i j hij hi hj
      exfalso
      have hlen' : (alkeys s.id2emb).length < 2 := by
        unfold alkeys
        rw [List.length_map]
        exact hlen
      have := mem_eq_of_short (alkeys s.id2emb) hlen' i j hi hj
      omega
  · intro i j hij hi hj
    have hmain := consGo_main s (alkeys s.id2emb) s [] hsort
      (fun k hk => hk)
      (fun k _ _ => ⟨rfl, rfl, rfl⟩)
      (fun c hc => absurd hc (List.not_mem_nil c))
    exact hmain.2 i j hij (hmain.1 i hi) (hmain.1 j hj) hi hj

/-- Witness for C9's amended theorem: in the three-identity scenario the pass
merges 1 into 0 and leaves 2; the surviving pair (0, 2) fails the merge
condition on the pre-pass data (pre-pass cosine 3/5 ≤ 0.65), even though its
post-pass cosine is 357/470 > 0.65. -/
theorem c9_amended_witness : mergeCondPre c9_state 0 2 = false :=
  c9_amended c9_state (by decide) 0 2 (by decide) (by decide) (by decide)

/-- C4, confirmed: the id set of the vector index equals the key set of the
`id2emb` map at every observable point — after any `process_face` call (normal
return or error), after a consolidation pass, and after a cleanup (the rebuild
happens inside `process_face`'s maintenance and is covered by the first
conjunct).  Every mutation site pairs the index update with the map update. -/
theorem c4_index_dom_eq (s : TrackerState) (emb : Vec) (bbox : BBox) (sid : String)
    (now : Q) (h : domEq s) :
    domEq (process_face s emb bbox sid now).1 ∧
    domEq (consolidate_duplicate_ids s) ∧
    domEq (cleanup_old_faces s now).1 :=
  ⟨domEq_process_face s emb bbox sid now h, domEq_consolidate s h,
   domEq_cleanup s now h⟩

/-- Witness for C4: instantiated at the freshly initialized tracker and the
scenario-1 observation (the call that creates identity 0). -/
theorem c4_witness :
    0 ∈ alkeys (process_face emptyState unitE c1_b1 "s1" (q 0 1)).1.index ↔
    0 ∈ alkeys (process_face emptyState unitE c1_b1 "s1" (q 0 1)).1.id2emb :=
  (c4_index_dom_eq emptyState unitE c1_b1 "s1" (q 0 1) (fun _ => Iff.rfl)).1 0

/-- C10, confirmed: `process_face` divides the raw embedding by its L2 norm
(server.py lines 139-141) before the size gate (lines 144-147) with no zero-norm
guard, so a zero embedding makes the division ill-defined even for a bbox the
size gate would reject, while the same small bbox with a unit embedding is
rejected by the gate as `(None, false, bbox)` with the state untouched. -/
theorem c10_normalize_before_size_gate (s : TrackerState) (sid : String) (now : Q) :
    process_face s zeroEmb smallBBox sid now = (s, .error .zeroNorm) ∧
    process_face s unitE smallBBox sid now = (s, .ok (none, false, smallBBox)) ∧
    smallBBox.x2 - smallBBox.x1 < min_face_size := by
  exact ⟨rfl, rfl, by decide⟩

end LiveDetect
